import Mathlib

/-!
Shallow embedding of the BlogPosting Schema Generator pipeline
(extractor.py, analyzer.py, schema_builder.py, utils.py) and proofs of the
behavioural claims about it.

Python dictionaries are modelled as insertion-ordered association lists of
`Value`s (a JSON-like dynamic value type); Python floats are modelled as exact
rationals (the claims proved here are independent of floating-point rounding);
Python exceptions are modelled with `Except`.  BeautifulSoup is modelled as an
abstract record of query functions (`Soup`): the repository's own control flow
over those queries is embedded faithfully, while the DOM traversal performed
inside the bs4 library is treated as an oracle.
-/

namespace BlogSchema

/-- JSON-like dynamic value, the model of a Python object stored in a dict. -/
inductive Value where
  | vnull : Value
  | vbool : Bool → Value
  | vnum : ℚ → Value
  | vstr : String → Value
  | varr : List Value → Value
  | vobj : List (String × Value) → Value
  deriving Repr

open Value

mutual

/-- Structural equality test for `Value` (Python `==` on well-typed data). -/
def Value.beq : Value → Value → Bool
  | vnull, vnull => true
  | vbool a, vbool b => a == b
  | vnum a, vnum b => a == b
  | vstr a, vstr b => a == b
  | varr a, varr b => Value.beqList a b
  | vobj a, vobj b => Value.beqFields a b
  | _, _ => false

def Value.beqList : List Value → List Value → Bool
  | [], [] => true
  | x :: xs, y :: ys => Value.beq x y && Value.beqList xs ys
  | _, _ => false

def Value.beqFields : List (String × Value) → List (String × Value) → Bool
  | [], [] => true
  | (k₁, v₁) :: xs, (k₂, v₂) :: ys => k₁ == k₂ && Value.beq v₁ v₂ && Value.beqFields xs ys
  | _, _ => false

end

mutual

theorem Value.beq_iff_eq : ∀ a b : Value, Value.beq a b = true ↔ a = b
  | vnull, vnull => by simp [Value.beq]
  | vbool _, vbool _ => by simp [Value.beq]
  | vnum _, vnum _ => by simp [Value.beq]
  | vstr _, vstr _ => by simp [Value.beq]
  | varr x, varr y => by simp [Value.beq, Value.beqList_iff_eq x y]
  | vobj x, vobj y => by simp [Value.beq, Value.beqFields_iff_eq x y]
  | vnull, vbool _ | vnull, vnum _ | vnull, vstr _ | vnull, varr _ | vnull, vobj _
  | vbool _, vnull | vbool _, vnum _ | vbool _, vstr _ | vbool _, varr _ | vbool _, vobj _
  | vnum _, vnull | vnum _, vbool _ | vnum _, vstr _ | vnum _, varr _ | vnum _, vobj _
  | vstr _, vnull | vstr _, vbool _ | vstr _, vnum _ | vstr _, varr _ | vstr _, vobj _
  | varr _, vnull | varr _, vbool _ | varr _, vnum _ | varr _, vstr _ | varr _, vobj _
  | vobj _, vnull | vobj _, vbool _ | vobj _, vnum _ | vobj _, vstr _ | vobj _, varr _ => by
      simp [Value.beq]

theorem Value.beqList_iff_eq : ∀ xs ys : List Value, Value.beqList xs ys = true ↔ xs = ys
  | [], [] => by simp [Value.beqList]
  | [], _ :: _ => by simp [Value.beqList]
  | _ :: _, [] => by simp [Value.beqList]
  | x :: xs, y :: ys => by
      simp [Value.beqList, Value.beq_iff_eq x y, Value.beqList_iff_eq xs ys]

theorem Value.beqFields_iff_eq :
    ∀ xs ys : List (String × Value), Value.beqFields xs ys = true ↔ xs = ys
  | [], [] => by simp [Value.beqFields]
  | [], _ :: _ => by simp [Value.beqFields]
  | _ :: _, [] => by simp [Value.beqFields]
  | (k₁, v₁) :: xs, (k₂, v₂) :: ys => by
      simp [Value.beqFields, Value.beq_iff_eq v₁ v₂, Value.beqFields_iff_eq xs ys,
        and_assoc, Prod.ext_iff]

end

instance : DecidableEq Value := fun a b =>
  decidable_of_iff (Value.beq a b = true) (Value.beq_iff_eq a b)

/-- Truthiness of a `Value`, Python `bool(x)`. -/
def pyTruthy : Value → Bool
  | vnull => false
  | vbool b => b
  | vnum q => q ≠ 0
  | vstr s => s ≠ ""
  | varr xs => xs ≠ []
  | vobj fs => fs ≠ []

/-- A Python dict: insertion-ordered association list. -/
abbrev Obj := List (String × Value)

/-- Python `d.get(k)` / `d[k]` lookup (first occurrence; dicts built by the
model never repeat a key). -/
def dget : Obj → String → Option Value
  | [], _ => none
  | (k₀, v₀) :: rest, k => if k₀ = k then some v₀ else dget rest k

/-- Python `d.get(k, default)`. -/
def dgetD (d : Obj) (k : String) (v₀ : Value) : Value :=
  (dget d k).getD v₀

/-- Python `d[k] = v`: replace in place when the key exists, else append. -/
def dset : Obj → String → Value → Obj
  | [], k, v => [(k, v)]
  | (k₀, v₀) :: rest, k, v =>
      if k₀ = k then (k, v) :: rest else (k₀, v₀) :: dset rest k v

/-- Python `d.update(other)`: assign each pair of `other` in order. -/
def dupdate (d : Obj) (other : Obj) : Obj :=
  other.foldl (fun acc p => dset acc p.1 p.2) d

/-- Splits a character list at maximal runs of characters satisfying `p`,
keeping empty pieces at the borders, the behaviour of Python
`re.split` with a `[...]+` character-class pattern. -/
def splitRunsGo (p : Char → Bool) : List Char → List Char → Bool → List String
  | [], acc, _ => [String.mk acc.reverse]
  | c :: cs, acc, inRun =>
      if p c then
        if inRun then splitRunsGo p cs [] true
        else String.mk acc.reverse :: splitRunsGo p cs [] true
      else splitRunsGo p cs (c :: acc) false

def splitRuns (p : Char → Bool) (s : String) : List String :=
  splitRunsGo p s.toList [] false

/-- Python `s.split()` with no argument: split on whitespace runs and drop
empty pieces.  (Python also treats a few rarer Unicode space characters as
whitespace; the difference does not matter for the properties proved here.) -/
def pySplitWs (s : String) : List String :=
  (splitRuns Char.isWhitespace s).filter (· ≠ "")

/-- Number of whitespace-separated tokens, Python `len(s.split())`. -/
def countWords (s : String) : Nat := (pySplitWs s).length

/-- Python `s.strip()` (whitespace from both ends), spelled structurally so
it evaluates by kernel reduction. -/
def pyStrip (s : String) : String :=
  String.mk (((s.toList.dropWhile Char.isWhitespace).reverse.dropWhile
    Char.isWhitespace).reverse)

/-- Whether `pre` is a prefix of `l` (structural helper). -/
def startsWithL : List Char → List Char → Bool
  | [], _ => true
  | _ :: _, [] => false
  | p :: ps, c :: cs => p == c && startsWithL ps cs

/-- Python `s.startswith(t)`. -/
def pyStartsWith (s t : String) : Bool := startsWithL t.toList s.toList

def splitOnGo (sep : List Char) : Nat → List Char → List Char → List (List Char)
  | _, [], acc => [acc.reverse]
  | 0, l, acc => [acc.reverse ++ l]
  | fuel + 1, c :: rest, acc =>
      if startsWithL sep (c :: rest) then
        acc.reverse :: splitOnGo sep fuel (rest.drop (sep.length - 1)) []
      else splitOnGo sep fuel rest (c :: acc)

/-- Python `s.split(sep)` with a non-empty separator (also the behaviour of
the splitting used throughout the source): split at each non-overlapping
occurrence, keeping empty pieces.  Spelled with explicit fuel so that it
evaluates by kernel reduction; the fuel `s.length` always suffices because
every recursive call consumes at least one character. -/
def pySplitOn (s sep : String) : List String :=
  if sep = "" then [s]
  else (splitOnGo sep.toList s.length s.toList []).map String.mk

def replaceGo (pat rep : List Char) : Nat → List Char → List Char
  | _, [] => []
  | 0, l => l
  | fuel + 1, c :: rest =>
      if startsWithL pat (c :: rest) then
        rep ++ replaceGo pat rep fuel (rest.drop (pat.length - 1))
      else c :: replaceGo pat rep fuel rest

/-- Python `s.replace(pat, rep)` for a non-empty pattern (every replacement
in the source uses a non-empty one), replacing all non-overlapping
occurrences left to right.  Fuel-structural for kernel evaluation. -/
def pyReplace (s pat rep : String) : String :=
  if pat = "" then s
  else String.mk (replaceGo pat.toList rep.toList s.length s.toList)

/-- Python `s.lower()` (ASCII). -/
def pyLower (s : String) : String := String.mk (s.toList.map Char.toLower)

def pyTitleGo : List Char → Bool → List Char
  | [], _ => []
  | c :: cs, prevAlpha =>
      if c.isAlpha then
        (if prevAlpha then c.toLower else c.toUpper) :: pyTitleGo cs true
      else c :: pyTitleGo cs false

/-- Python `s.title()` (restricted to ASCII letters, as all inputs here are). -/
def pyTitle (s : String) : String := String.mk (pyTitleGo s.toList false)

/-- Python `t in s` substring test. -/
def strContains (s t : String) : Bool :=
  if t = "" then true else (pySplitOn s t).length ≠ 1

/-- Python `s[:n]` on a string (slicing counts code points, as Lean chars do). -/
def pyTake (s : String) (n : Nat) : String := String.mk (s.toList.take n)

/-- Round to the nearest integer, halves up (spelled with `Rat.floor` so
that it evaluates by kernel reduction). -/
def pyRound (q : ℚ) : ℤ := (q + 1 / 2).floor

/-- Python `round(q, 2)`.  Python uses round-half-to-even on binary floats;
this model rounds half away from zero on exact rationals.  The two agree
except at exact half-way points, and every property proved below is
independent of the tie-breaking rule. -/
def round2 (q : ℚ) : ℚ := ((pyRound (q * 100) : ℤ) : ℚ) / 100

theorem pyRound_eq_floor (q : ℚ) : pyRound q = ⌊q + 1 / 2⌋ := by
  rw [pyRound, Rat.floor_def', ← Rat.floor_def]

/-- Deduplication keeping the first occurrence of each element.  Models the
cardinality (and one fixed enumeration order) of Python `list(set(xs))`,
whose own order is unspecified. -/
def firstDedup {α : Type} [DecidableEq α] (xs : List α) : List α :=
  xs.foldl (fun acc x => if x ∈ acc then acc else acc ++ [x]) []

def insertDesc {α : Type} (key : α → Nat) : List α → α → List α
  | [], x => [x]
  | y :: ys, x => if key y < key x then x :: y :: ys else y :: insertDesc key ys x

/-- Stable sort by strictly descending key: the model of Python
`sorted(xs, key=..., reverse=True)` (and hence of `Counter.most_common`). -/
def sortDescBy {α : Type} (key : α → Nat) (xs : List α) : List α :=
  xs.foldl (insertDesc key) []

/-- Items of `collections.Counter(xs)` in first-insertion order. -/
def counterItems (xs : List String) : List (String × Nat) :=
  (firstDedup xs).map (fun w => (w, xs.count w))

/-- Python `Counter(xs).most_common(n)`. -/
def mostCommon (n : Nat) (xs : List String) : List (String × Nat) :=
  (sortDescBy (·.2) (counterItems xs)).take n

def collapseWsGo : List Char → Bool → List Char
  | [], _ => []
  | c :: cs, prevWs =>
      if c.isWhitespace then
        (if prevWs then collapseWsGo cs true else ' ' :: collapseWsGo cs true)
      else c :: collapseWsGo cs false

/-- A control character per the class `[\x00-\x1f\x7f-\x9f]`. -/
def isCtl (c : Char) : Bool := c.val ≤ 0x1f || (0x7f ≤ c.val && c.val ≤ 0x9f)

def squashGo : Nat → List Char → List Char
  | _, [] => []
  | 0, l => l
  | fuel + 1, c :: cs =>
      let n := (cs.takeWhile (· = c)).length + 1
      let rest := cs.dropWhile (· = c)
      let m :=
        if c = '.' && n ≥ 3 then 3
        else if c = '!' && n ≥ 2 then 1
        else if c = '?' && n ≥ 2 then 1
        else n
      List.replicate m c ++ squashGo fuel rest

/-- utils.py `TextProcessor.clean_text` (lines 121-138): collapse whitespace
runs to a single space, delete control characters, squash runs of 3+ dots to
an ellipsis and runs of 2+ bangs or question marks to one, then strip. -/
def cleanTextCore (s : String) : String :=
  if s = "" then ""
  else
    let s₁ := String.mk (collapseWsGo s.toList false)
    let s₂ := String.mk (s₁.toList.filter (fun c => ¬ isCtl c))
    let s₃ := String.mk (squashGo s₂.length s₂.toList)
    pyStrip s₃

/-- Modelled from the spec: the module-level helper `utils.clean_text(text,
max_length=...)` called throughout extractor.py is absent from utils.py (only
the `TextProcessor.clean_text` method exists).  Per the spec it cleans the
text and clamps it to `max_length` characters ("strip and clamp to 200
characters"); modelled as the in-repo cleaning routine followed by a take. -/
def clean_text (s : String) (maxLen : Option Nat) : String :=
  let c := cleanTextCore s
  match maxLen with
  | none => c
  | some n => pyTake c n

/-- Result of Python `urllib.parse.urlparse`, restricted to the three
components this repository reads. -/
structure UrlParts where
  scheme : String
  netloc : String
  path : String
  deriving Repr, DecidableEq

/-- Model of `urllib.parse.urlparse` for URLs without query or fragment
parts (none of the claims involve URLs with them): the scheme is whatever
precedes the first "://", the netloc runs to the next slash, the path is the
rest.  A string without "://" is all path, as urlparse returns for it. -/
def pyUrlparse (url : String) : UrlParts :=
  match pySplitOn url "://" with
  | [] => ⟨"", "", url⟩
  | [_] => ⟨"", "", url⟩
  | s :: rest =>
      let r := String.intercalate "://" rest
      ⟨s, String.mk (r.toList.takeWhile (· ≠ '/')), String.mk (r.toList.dropWhile (· ≠ '/'))⟩

/-- Modelled from the spec: `utils.get_base_url`, called by the extractor but
absent from utils.py.  Per the spec the base URL is the scheme-and-host root
of the page URL, against which relative links are resolved.  Total: it cannot
raise, matching a scheme-plus-netloc reading of an urlparse result. -/
def get_base_url (url : String) : String :=
  let p := pyUrlparse url
  if p.scheme ≠ "" && p.netloc ≠ "" then p.scheme ++ "://" ++ p.netloc else ""

/-- Modelled from the spec: `utils.safe_url_join`, called by the extractor but
absent from utils.py.  Per the spec it resolves a candidate URL against the
base URL: absolute URLs pass through, scheme-relative "//" URLs get "https:",
path-relative URLs are joined to the base by standard URL-join rules. -/
def safe_url_join (base url : String) : String :=
  if pyStartsWith url "http://" || pyStartsWith url "https://" then url
  else if pyStartsWith url "//" then "https:" ++ url
  else if url = "" then base
  else if pyStartsWith url "/" then base ++ url
  else base ++ "/" ++ url

/-- A DOM element as the extractor reads it: its stripped text content and
its attributes. -/
structure Element where
  text : String
  attrs : List (String × String)
  deriving Repr

/-- Python `element.get(attr, default)`. -/
def Element.getAttr (e : Element) (a dflt : String) : String :=
  ((e.attrs.find? (fun p => p.1 = a)).map (·.2)).getD dflt

/-- An exception escaping a bs4 query (malformed document structure). -/
structure Err where
  msg : String

/-- Abstract model of a parsed BeautifulSoup document.  Each field abstracts
one bs4 query primitive the extractor uses; each may raise, modelling
parse/extraction faults inside the library (spec section 7, class c).  The
repository's own cascade logic over these queries is embedded faithfully
below. -/
structure Soup where
  /-- soup.select_one(selector) -/
  selOne : String → Except Err (Option Element)
  /-- soup.select(selector) -/
  selAll : String → Except Err (List Element)
  /-- soup.find(tag) -/
  findTag : String → Except Err (Option Element)
  /-- text of the first match of the selector after decomposing the given
  unwanted selectors, i.e. the copy/decompose/get_text(separator=' ',
  strip=True) sequence of extractor.py lines 334-371; none when the selector
  has no match. -/
  cleanedText : String → List String → Except Err (Option String)
  /-- the embedded JSON-LD author lookup of extractor.py lines 186-199,
  which the spec itself treats as "an opaque nested-JSON lookup for an
  author.name/author.url pair". -/
  ldAuthor : Except Err (Option (String × String))

/-- Modelled from the spec: `utils.get_multiple_text_from_elements`, called
by the extractor but absent from utils.py.  Per the spec ("first non-empty
match wins") it tries each CSS selector in order and returns the first
non-empty element text, else the empty string. -/
def get_multiple_text (soup : Soup) : List String → Except Err String
  | [] => .ok ""
  | sel :: rest => do
      match ← soup.selOne sel with
      | some el => if el.text ≠ "" then .ok el.text else get_multiple_text soup rest
      | none => get_multiple_text soup rest

/-- Modelled from the spec: `utils.get_multiple_attributes_from_elements`,
called by the extractor but absent from utils.py.  Per the spec it tries each
(selector, attribute) pair in order and returns the first non-empty attribute
value, else the empty string. -/
def get_multiple_attrs (soup : Soup) : List (String × String) → Except Err String
  | [] => .ok ""
  | (sel, attr) :: rest => do
      match ← soup.selOne sel with
      | some el =>
          let v := el.getAttr attr ""
          if v ≠ "" then .ok v else get_multiple_attrs soup rest
      | none => get_multiple_attrs soup rest

/-! Selector tables of extractor.py, verbatim. -/

def headline_selectors : List String :=
  ["h1.entry-title", "h1.post-title", "h1[class*=\"title\"]", "article h1",
   ".article-title", ".post-header h1", "h1", "title"]

/-- The content-attribute candidates of `description_selectors` (the list
comprehension at extractor.py line 93 keeps exactly these). -/
def description_meta_pairs : List (String × String) :=
  [("meta[name=\"description\"]", "content"),
   ("meta[property=\"og:description\"]", "content"),
   ("meta[name=\"twitter:description\"]", "content")]

def excerpt_selectors : List String :=
  [".post-excerpt", ".entry-summary", "article .summary"]

def date_selectors : List (String × String) :=
  [("meta[property=\"article:published_time\"]", "content"),
   ("meta[name=\"article:published_time\"]", "content"),
   ("meta[property=\"datePublished\"]", "content"),
   ("time[datetime]", "datetime"),
   ("time[class*=\"published\"]", "datetime"),
   (".published-date", "datetime"),
   (".post-date time", "datetime")]

def modified_selectors : List (String × String) :=
  [("meta[property=\"article:modified_time\"]", "content"),
   ("meta[name=\"article:modified_time\"]", "content"),
   ("meta[property=\"dateModified\"]", "content"),
   ("time[class*=\"modified\"]", "datetime"),
   (".modified-date", "datetime")]

/-- extractor.py `extract_primary_data` (lines 46-130). -/
def extract_primary_data (soup : Soup) (_url : String) : Except Err Obj :=
  get_multiple_text soup headline_selectors >>= fun hl₀ =>
  (if hl₀ = "" then
      soup.findTag "title" >>= fun t? =>
        pure (match t? with
              | some el => el.text
              | none => "")
    else pure hl₀) >>= fun hl₁ =>
  get_multiple_attrs soup description_meta_pairs >>= fun d₀ =>
  (if d₀ = "" then get_multiple_text soup excerpt_selectors else pure d₀) >>= fun d₁ =>
  get_multiple_attrs soup date_selectors >>= fun datePub =>
  get_multiple_attrs soup modified_selectors >>= fun dateMod =>
  Except.ok [("headline", vstr (clean_text hl₁ (some 200))),
             ("description", vstr (clean_text d₁ (some 300))),
             ("datePublished", vstr datePub), ("dateModified", vstr dateMod)]

def author_patterns : List (String × String) :=
  [("[class*=\"author\"] a[href*=\"author\"]", "href"),
   ("a[rel=\"author\"]", "href"),
   (".author-name a", "href"),
   (".byline a", "href"),
   ("[data-testid=\"authorName\"] a", "href"),
   (".author-link", "href"),
   ("a[href*=\"/author/\"]", "href"),
   ("a[href*=\"/authors/\"]", "href"),
   ("[itemtype*=\"Person\"] a", "href"),
   ("[itemtype*=\"Person\"] [itemprop=\"url\"]", "href"),
   (".post-author a", "href"),
   (".article-author a", "href"),
   ("header .author a", "href")]

def extract_author_loop (soup : Soup) (base : String) :
    List (String × String) → Except Err (Option Obj)
  | [] => .ok none
  | (sel, hrefAttr) :: rest => do
      match ← soup.selOne sel with
      | some el =>
          let name := el.text
          let u := el.getAttr hrefAttr ""
          if name ≠ "" && u ≠ "" then
            let name' := clean_text name (some 100)
            let aurl := safe_url_join base u
            if name' ≠ "" && aurl ≠ "" then
              .ok (some [("name", vstr name'), ("url", vstr aurl)])
            else extract_author_loop soup base rest
          else extract_author_loop soup base rest
      | none => extract_author_loop soup base rest

/-- extractor.py `extract_author_data` (lines 132-202). -/
def extract_author_data (soup : Soup) (base : String) : Except Err (Option Obj) := do
  match ← extract_author_loop soup base author_patterns with
  | some a => .ok (some a)
  | none => do
      match ← soup.ldAuthor with
      | some (n, u) =>
          .ok (some [("name", vstr (clean_text n (some 100))), ("url", vstr u)])
      | none => .ok none

def publisher_meta_pairs : List (String × String) :=
  [("meta[property=\"og:site_name\"]", "content"),
   ("meta[name=\"application-name\"]", "content"),
   ("meta[name=\"site_name\"]", "content")]

def publisher_text_selectors : List String :=
  [".site-title", "header .site-name", ".brand-name"]

def logo_selectors : List String :=
  ["header img[src*=\"logo\"]", "img[class*=\"logo\"]", "a[class*=\"logo\"] img",
   ".site-logo img", ".brand-logo img", "header .logo img",
   "[itemtype*=\"Organization\"] img", "img[alt*=\"logo\" i]", "img[alt*=\"brand\" i]"]

/-- The domain-derived fallback publisher name of extractor.py lines 238-241:
strip every "www." from the netloc, take the first dot-separated label,
title-case it. -/
def domainLabel (base : String) : String :=
  pyTitle ((pySplitOn (pyReplace ((pyUrlparse base).netloc) "www." "") ".").headD "")

/-- extractor.py lines 227-243: publisher name from meta candidates, else
text candidates, else the domain-derived fallback.  The try/except around the
fallback can only fire on an urlparse failure, which the total urlparse of
this model never produces, so the "Unknown Publisher" default is
unreachable here. -/
def choose_publisher_name (soup : Soup) (base : String) : Except Err String :=
  get_multiple_attrs soup publisher_meta_pairs >>= fun n₀ =>
  if n₀ ≠ "" then Except.ok n₀
  else
    get_multiple_text soup publisher_text_selectors >>= fun n₁ =>
    if n₁ ≠ "" then Except.ok n₁ else Except.ok (domainLabel base)

def find_logo (soup : Soup) (base : String) : List String → Except Err String
  | [] => .ok ""
  | sel :: rest => do
      match ← soup.selOne sel with
      | some el =>
          let src := el.getAttr "src" ""
          if src ≠ "" then .ok (safe_url_join base src) else find_logo soup base rest
      | none => find_logo soup base rest

/-- extractor.py `extract_publisher_data` (lines 204-273). -/
def extract_publisher_data (soup : Soup) (base : String) : Except Err Obj :=
  choose_publisher_name soup base >>= fun pname =>
  find_logo soup base logo_selectors >>= fun logo =>
  Except.ok [("url", vstr base), ("name", vstr (clean_text pname (some 100))),
             ("logo", vobj [("url", vstr logo)])]

def image_pairs : List (String × String) :=
  [("meta[property=\"og:image\"]", "content"),
   ("meta[name=\"twitter:image\"]", "content"),
   ("meta[name=\"thumbnail\"]", "content"),
   (".featured-image img", "src"),
   (".post-thumbnail img", "src"),
   ("article img:first-of-type", "src"),
   (".entry-content img:first-of-type", "src")]

def image_loop (soup : Soup) (base : String) :
    List (String × String) → Except Err (Option Obj)
  | [] => .ok none
  | (sel, attr) :: rest => do
      match ← soup.selOne sel with
      | some el =>
          let u := el.getAttr attr ""
          if u ≠ "" then
            let full := safe_url_join base u
            if full ≠ "" then .ok (some [("url", vstr full)])
            else image_loop soup base rest
          else image_loop soup base rest
      | none => image_loop soup base rest

/-- extractor.py `extract_featured_image` (lines 275-307). -/
def extract_featured_image (soup : Soup) (base : String) : Except Err (Option Obj) :=
  image_loop soup base image_pairs

def content_selectors : List String :=
  ["article .entry-content", "article .post-content", ".post-body",
   ".entry-content", ".content", "main article", "[role=\"main\"] article",
   ".article-body", ".post-text"]

def unwanted_selectors : List String :=
  ["script", "style", "nav", "aside", "header", "footer",
   ".advertisement", ".ads", ".social-share", ".related-posts",
   ".comments", ".comment-form", ".sidebar", ".widget"]

def body_loop (soup : Soup) : List String → String → Except Err String
  | [], acc => .ok acc
  | sel :: rest, acc => do
      match ← soup.cleanedText sel unwanted_selectors with
      | some t => if t.length > 200 then .ok t else body_loop soup rest t
      | none => body_loop soup rest acc

/-- extractor.py `extract_body_text` (lines 309-378): selector cascade with a
200-character threshold, article fallback, body fallback with a 100-character
threshold, final cleaning. -/
def extract_body_text (soup : Soup) : Except Err String := do
  let t₀ ← body_loop soup content_selectors ""
  let t₁ ←
    if t₀ = "" || t₀.length < 200 then do
      match ← soup.cleanedText "article" ["script", "style"] with
      | some t => pure t
      | none => pure t₀
    else pure t₀
  let t₂ ←
    if t₁ = "" || t₁.length < 100 then do
      match ← soup.cleanedText "body" ["script", "style", "nav", "header", "footer"] with
      | some t => pure t
      | none => pure t₁
    else pure t₁
  .ok (clean_text t₂ none)

def category_link_selectors : List String :=
  [".post-categories a", ".entry-categories a", ".tags a", ".post-tags a"]

def addCategories (cats : List String) (els : List Element) : List String :=
  els.foldl (fun acc el =>
    if el.text ≠ "" && el.text ∉ acc then acc ++ [el.text] else acc) cats

def collect_categories (soup : Soup) : List String → List String → Except Err (List String)
  | [], cats => .ok cats
  | sel :: rest, cats => do
      let els ← soup.selAll sel
      collect_categories soup rest (addCategories cats els)

/-- The language entry of the metadata (extractor.py lines 394-396). -/
def langMeta : Option Element → Obj
  | some el =>
      if el.getAttr "lang" "" ≠ "" then [("language", vstr (el.getAttr "lang" ""))]
      else []
  | none => []

/-- The comma-split meta-keywords categories (extractor.py lines 409-412). -/
def metaKeywordCats : Option Element → List String
  | some el => ((pySplitOn (el.getAttr "content" "") ",").map pyStrip).filter (· ≠ "")
  | none => []

/-- extractor.py `extract_additional_metadata` (lines 380-430): language from
the html tag, categories from meta keywords plus category/tag links (first
ten), estimated reading time from the word count of the extracted body text.
Note this function computes the word count but stores only the reading time. -/
def extract_additional_metadata (soup : Soup) (_base : String) : Except Err Obj :=
  soup.findTag "html" >>= fun htmlTag =>
  soup.selOne "meta[name=\"keywords\"]" >>= fun kwMeta =>
  collect_categories soup category_link_selectors (metaKeywordCats kwMeta) >>= fun cats =>
  extract_body_text soup >>= fun bt =>
  Except.ok ((if cats ≠ [] then
      langMeta htmlTag ++ [("categories", varr ((cats.take 10).map vstr))]
    else langMeta htmlTag) ++
    [("estimatedReadingTime", vstr ("PT" ++ toString (max 1 (countWords bt / 200)) ++ "M"))])

/-- Modelled from the spec: `utils.validate_extracted_data` is called by the
extractor but absent from utils.py.  The spec describes no transformation of
the record beyond the per-field contracts already applied before this point
(spec section 4.1), so the step is modelled as the identity on the record. -/
def validate_extracted_data (d : Obj) : Except Err Obj := .ok d

/-- Runs a sequence of dict-updating steps, stopping at the first raised
exception: returns the dict as updated so far and whether all steps
succeeded — the model of the try block of `extract_all_data`, whose partial
updates survive into the except handler. -/
def trySteps : List (Obj → Except Err Obj) → Obj → Obj × Bool
  | [], d => (d, true)
  | f :: fs, d =>
      match f d with
      | .ok d' => trySteps fs d'
      | .error _ => (d, false)

/-- The statements of the try block of extractor.py lines 449-481, in order. -/
def extractSteps (soup : Soup) (url base : String) : List (Obj → Except Err Obj) :=
  [fun d => (extract_primary_data soup url).map (fun p => dupdate d p),
   fun d => (extract_author_data soup base).map (fun a? =>
     match a? with
     | some a => dset d "author" (vobj a)
     | none => d),
   fun d => (extract_publisher_data soup base).map (fun p => dset d "publisher" (vobj p)),
   fun d => (extract_featured_image soup base).map (fun i? =>
     match i? with
     | some i => dset d "image" (vobj i)
     | none => d),
   fun d => (extract_body_text soup).map (fun t => dset d "bodyText" (vstr t)),
   fun d => (extract_additional_metadata soup base).map (fun m => dupdate d m),
   fun d => .ok (dset d "isPartOf" (vobj [("url", vstr (safe_url_join base "/blog/"))])),
   fun d => validate_extracted_data d]

/-- The degraded update applied by the except handler of extractor.py lines
483-491. -/
def minimal_update (base : String) (d : Obj) : Obj :=
  dupdate d
    [("headline", vstr ""), ("description", vstr ""), ("bodyText", vstr ""),
     ("publisher", vobj [("name", vstr "Unknown"), ("url", vstr base),
                         ("logo", vobj [("url", vstr "")])])]

/-- extractor.py `extract_all_data` (lines 432-493).  Total by construction:
the base-URL computation before the try block cannot raise (its model is a
total function), and every exception inside the try block is absorbed by the
except handler, which overwrites headline, description, bodyText and
publisher with the degraded values. -/
def extract_all_data (soup : Soup) (url : String) : Obj :=
  match trySteps (extractSteps soup url (get_base_url url)) [("url", vstr url)] with
  | (d, true) => d
  | (d, false) => minimal_update (get_base_url url) d

/-- Whether the try block of `extract_all_data` runs to completion. -/
def extractOk (soup : Soup) (url : String) : Bool :=
  (trySteps (extractSteps soup url (get_base_url url)) [("url", vstr url)]).2

/-!
Analyzer (analyzer.py).  Convention for dynamically-typed reads: where
Python would raise on an ill-typed value (and the raise would be absorbed by
the try of `analyze_content`), the model reads a documented default instead.
Every claim proved below concerns well-typed records, on which the model and
the source agree exactly.
-/

/-- Python `d.get(k, dflt)` expecting a string. -/
def getStrD (d : Obj) (k dflt : String) : String :=
  match dget d k with
  | some (vstr s) => s
  | _ => dflt

/-- Python `d.get(k, [])` expecting a list. -/
def getArrD (d : Obj) (k : String) : List Value :=
  match dget d k with
  | some (varr xs) => xs
  | _ => []

/-- Python `d.get(k, q)` expecting a number. -/
def getNumD (d : Obj) (k : String) (q : ℚ) : ℚ :=
  match dget d k with
  | some (vnum x) => x
  | _ => q

/-- The stop-word set of analyzer.py lines 43-52 ('her' appears twice in the
source; set membership is unaffected). -/
def stop_words : List String :=
  ["the", "a", "an", "and", "or", "but", "in", "on", "at", "to", "for",
   "of", "with", "by", "from", "up", "about", "into", "through", "during",
   "before", "after", "above", "below", "between", "among", "amongst",
   "i", "you", "he", "she", "it", "we", "they", "me", "him", "her", "us",
   "them", "my", "your", "his", "her", "its", "our", "their", "this",
   "that", "these", "those", "am", "is", "are", "was", "were", "be",
   "been", "being", "have", "has", "had", "do", "does", "did", "will",
   "would", "could", "should", "may", "might", "must", "can", "shall"]

def isWordChar (c : Char) : Bool := c.isAlpha || c.isDigit || c = '_'

/-- Model of `re.findall(r'\b[a-zA-Z]\x7b3,\x7d\b', s)`: the maximal
word-character runs that consist solely of ASCII letters and have length at
least three (a run touching a digit or underscore has no word boundary and
is not matched). -/
def wordTokens (s : String) : List String :=
  ((splitRuns (fun c => !(isWordChar c)) s).filter (· ≠ "")).filter
    (fun w => w.length ≥ 3 && w.toList.all Char.isAlpha)

def isSentenceEnd (c : Char) : Bool := c = '.' || c = '!' || c = '?'

/-- analyzer.py `_analyze_content_metrics` (lines 95-110).  Note the averages
divide by the length of the raw `re.split` result, while the counts use the
filtered lists. -/
def analyze_content_metrics (content : String) : Obj :=
  let words := pySplitWs content
  let sentencesRaw := splitRuns isSentenceEnd content
  let paragraphs := pySplitOn content "\n\n"
  [("word_count", vnum words.length),
   ("sentence_count", vnum ((sentencesRaw.filter (fun s => pyStrip s ≠ "")).length)),
   ("paragraph_count", vnum ((paragraphs.filter (fun p => pyStrip p ≠ "")).length)),
   ("average_words_per_sentence",
     vnum (round2 ((words.length : ℚ) / (max 1 sentencesRaw.length : ℚ)))),
   ("average_sentences_per_paragraph",
     vnum (round2 ((sentencesRaw.length : ℚ) / (max 1 paragraphs.length : ℚ)))),
   ("character_count", vnum content.length),
   ("character_count_no_spaces", vnum (pyReplace content " " "").length),
   ("reading_time_minutes", vnum (max 1 (pyRound ((words.length : ℚ) / 200)) : ℤ))]

def twoPhrases (ws : List String) : List String :=
  (ws.zip ws.tail).filterMap (fun p =>
    if p.1 ∉ stop_words && p.2 ∉ stop_words then some (p.1 ++ " " ++ p.2) else none)

def threePhrases (ws : List String) : List String :=
  (ws.zip (ws.tail.zip ws.tail.tail)).filterMap (fun p =>
    if p.1 ∉ stop_words && p.2.1 ∉ stop_words && p.2.2 ∉ stop_words then
      some (p.1 ++ " " ++ p.2.1 ++ " " ++ p.2.2)
    else none)

/-- analyzer.py `_extract_phrases` (lines 148-165): all 2-word windows with
no stop word, then all 3-word windows with no stop word. -/
def extract_phrases (text : String) : List String :=
  let ws := wordTokens text
  twoPhrases ws ++ threePhrases ws

/-- analyzer.py `_extract_keywords` (lines 112-146). -/
def extract_keywords (content title : String) : Obj :=
  let all_text := pyLower (title ++ " " ++ title ++ " " ++ content)
  let words := wordTokens all_text
  let filtered := words.filter (fun w => w ∉ stop_words)
  let phrases := extract_phrases (pyLower content)
  let topKw := (mostCommon 20 filtered).map (fun p =>
    vobj [("word", vstr p.1), ("frequency", vnum p.2),
          ("relevance_score", vnum ((p.2 : ℚ) / (filtered.length : ℚ)))])
  let topPh := (mostCommon 10 phrases).map (fun p =>
    vobj [("phrase", vstr p.1), ("frequency", vnum p.2),
          ("relevance_score", vnum ((p.2 : ℚ) / (phrases.length : ℚ)))])
  [("total_unique_words", vnum (firstDedup filtered).length),
   ("keyword_density", vnum ((filtered.length : ℚ) / (max 1 words.length : ℚ))),
   ("top_keywords", varr topKw),
   ("top_phrases", varr topPh),
   ("word_frequency_distribution",
     vobj ((mostCommon 50 filtered).map (fun p => (p.1, vnum p.2))))]

def isVowelY (c : Char) : Bool :=
  c = 'a' || c = 'e' || c = 'i' || c = 'o' || c = 'u' || c = 'y'

/-- The syllable approximation of analyzer.py lines 177-190: one for a
leading vowel, one per non-vowel-to-vowel transition, minus one for a
trailing 'e', floored at one.  The empty-string case is unreachable (callers
pass whitespace-split tokens). -/
def count_syllables (word : String) : ℤ :=
  let cs := (pyLower word).toList
  match cs with
  | [] => 1
  | c :: rest =>
      let start : ℤ := if isVowelY c then 1 else 0
      let trans : ℤ :=
        ((c :: rest).zip rest).countP (fun p => isVowelY p.2 && !(isVowelY p.1))
      let afterE : ℤ :=
        start + trans - (if (c :: rest).getLast? = some 'e' then 1 else 0)
      if afterE = 0 then 1 else afterE

/-- analyzer.py `_analyze_readability` (lines 167-222).  The float literals
206.835, 1.015 and 84.6 are modelled as exact rationals; the clamping claim
proved about this function is independent of that choice. -/
def analyze_readability (content : String) : Obj :=
  let words := pySplitWs content
  let sentences := ((splitRuns isSentenceEnd content).map pyStrip).filter (· ≠ "")
  if words = [] || sentences = [] then
    [("flesch_score", vnum 0), ("reading_level", vstr "Unknown")]
  else
    let totalSyll : ℤ := (words.map count_syllables).sum
    let avgSL : ℚ := (words.length : ℚ) / (sentences.length : ℚ)
    let avgSPW : ℚ := (totalSyll : ℚ) / (words.length : ℚ)
    let raw : ℚ := 206835 / 1000 - (1015 / 1000) * avgSL - (846 / 10) * avgSPW
    let clamped : ℚ := max 0 (min 100 raw)
    let level :=
      if clamped ≥ 90 then "Very Easy"
      else if clamped ≥ 80 then "Easy"
      else if clamped ≥ 70 then "Fairly Easy"
      else if clamped ≥ 60 then "Standard"
      else if clamped ≥ 50 then "Fairly Difficult"
      else if clamped ≥ 30 then "Difficult"
      else "Very Difficult"
    [("flesch_score", vnum (round2 clamped)),
     ("reading_level", vstr level),
     ("average_sentence_length", vnum (round2 avgSL)),
     ("average_syllables_per_word", vnum (round2 avgSPW)),
     ("total_syllables", vnum totalSyll)]

/-- The value a heading record contributes as its level (`h.get('level', 1)`). -/
def headingLevel (h : Value) : ℚ :=
  match h with
  | vobj o => getNumD o "level" 1
  | _ => 1

def headingKey (h : Value) : String :=
  match h with
  | vobj o =>
      match dget o "level" with
      | some (vnum q) => "h" ++ (if q.den = 1 then toString q.num else toString q)
      | some (vstr s) => "h" ++ s
      | _ => "h1"
  | _ => "h1"

/-- analyzer.py `_check_heading_hierarchy` (lines 252-264): no heading level
may exceed the previous one by more than one. -/
def check_heading_hierarchy (hs : List Value) : Bool :=
  (hs.foldl (fun (st : Bool × ℚ) h =>
    let l := headingLevel h
    (st.1 && !(decide (l > st.2 + 1)), l)) (true, 0)).1

def linkInternal (l : Value) : Bool :=
  match l with
  | vobj o => pyTruthy (dgetD o "is_internal" (vbool false))
  | _ => false

def linkExternalFlag (l : Value) : Bool :=
  match l with
  | vobj o => !(pyTruthy (dgetD o "is_internal" (vbool true)))
  | _ => false

/-- analyzer.py `_analyze_structure` (lines 224-250). -/
def analyze_structure (cd : Obj) : Obj :=
  let headings := getArrD cd "headings"
  let links := getArrD cd "links"
  let hstruct : Obj := headings.foldl (fun acc h =>
    let k := headingKey h
    dset acc k (vnum (getNumD acc k 0 + 1))) []
  let internal := (links.filter linkInternal).length
  let external := (links.filter linkExternalFlag).length
  [("heading_structure", vobj hstruct),
   ("total_headings", vnum headings.length),
   ("total_links", vnum links.length),
   ("internal_links", vnum internal),
   ("external_links", vnum external),
   ("link_distribution",
     vobj [("internal_ratio", vnum ((internal : ℚ) / (max 1 links.length : ℚ))),
           ("external_ratio", vnum ((external : ℚ) / (max 1 links.length : ℚ)))]),
   ("has_proper_heading_hierarchy", vbool (check_heading_hierarchy headings))]

def keywordMatches (kws : List Value) (s : String) : Bool :=
  kws.any (fun kv =>
    match kv with
    | vstr k => strContains (pyLower s) (pyLower k)
    | _ => false)

/-- analyzer.py `_calculate_seo_score` (lines 304-334). -/
def calculate_seo_score (t d c : Obj) : ℚ :=
  let score : ℚ :=
    (if pyTruthy (dgetD t "optimal_length" (vbool false)) then 15 else 0) +
    (if pyTruthy (dgetD t "has_keywords" (vbool false)) then 10 else 0) +
    (if pyTruthy (dgetD d "optimal_length" (vbool false)) then 15 else 0) +
    (if pyTruthy (dgetD d "has_keywords" (vbool false)) then 10 else 0) +
    (if pyTruthy (dgetD c "has_meta_description" (vbool false)) then 10 else 0) +
    (if pyTruthy (dgetD c "has_headings" (vbool false)) then 15 else 0) +
    (if pyTruthy (dgetD c "has_images" (vbool false)) then 10 else 0) +
    (if pyTruthy (dgetD c "word_count_optimal" (vbool false)) then 15 else 0)
  round2 ((score / 100) * 100)

/-- analyzer.py `_analyze_seo_factors` (lines 266-302). -/
def analyze_seo_factors (cd : Obj) : Obj :=
  let title := getStrD cd "title" ""
  let description := getStrD cd "description" ""
  let keywords := getArrD cd "keywords"
  let kws5 := keywords.take 5
  let t : Obj :=
    [("length", vnum title.length),
     ("word_count", vnum (pySplitWs title).length),
     ("optimal_length", vbool (30 ≤ title.length && title.length ≤ 60)),
     ("has_keywords", vbool (keywordMatches kws5 title))]
  let d : Obj :=
    [("length", vnum description.length),
     ("word_count", vnum (pySplitWs description).length),
     ("optimal_length", vbool (120 ≤ description.length && description.length ≤ 160)),
     ("has_keywords", vbool (keywordMatches kws5 description))]
  let wc := getNumD cd "word_count" 0
  let c : Obj :=
    [("has_meta_description", vbool (description ≠ "" && description.length > 50)),
     ("has_headings", vbool ((getArrD cd "headings").length > 0)),
     ("has_images", vbool (pyTruthy (dgetD cd "image_url" vnull))),
     ("word_count_optimal", vbool (300 ≤ wc && wc ≤ 2500))]
  [("title_analysis", vobj t),
   ("description_analysis", vobj d),
   ("content_analysis", vobj c),
   ("overall_seo_score", vnum (calculate_seo_score t d c))]

/-- analyzer.py `_empty_analysis` (lines 382-392); the timestamp is a
parameter of the model. -/
def empty_analysis (ts msg : String) : Obj :=
  [("content_metrics", vobj []),
   ("keyword_analysis", vobj []),
   ("readability", vobj []),
   ("structure_analysis", vobj []),
   ("seo_analysis", vobj []),
   ("analysis_timestamp", vstr ts),
   ("error", vstr msg)]

/-- The analyzer's configuration: whether AI enrichment is enabled and, when
it is, the enrichment result (modelling `_generate_ai_insights` as an
oracle, per the spec's treatment of it as an external collaborator). -/
structure AnalyzerCfg where
  aiEnabled : Bool
  aiInsights : String → String → Obj

/-- analyzer.py `ContentAnalyzer.analyze_content` (lines 54-93): reads keys
'content' and 'title', returns the empty analysis with message "No content
to analyze" when the content is falsy, otherwise assembles the sub-reports;
any exception raised during analysis (here: a truthy non-string content,
which the source would crash on while splitting) degrades to the empty
analysis with an error message. -/
def analyze_content (cfg : AnalyzerCfg) (ts : String) (cd : Obj) : Obj :=
  let contentV := dgetD cd "content" (vstr "")
  match contentV with
  | vstr content =>
      if content = "" then empty_analysis ts "No content to analyze"
      else
        let title := getStrD cd "title" ""
        let analysis : Obj :=
          [("content_metrics", vobj (analyze_content_metrics content)),
           ("keyword_analysis", vobj (extract_keywords content title)),
           ("readability", vobj (analyze_readability content)),
           ("structure_analysis", vobj (analyze_structure cd)),
           ("seo_analysis", vobj (analyze_seo_factors cd)),
           ("analysis_timestamp", vstr ts)]
        if cfg.aiEnabled then
          analysis ++ [("ai_insights", vobj (cfg.aiInsights content title))]
        else analysis
  | v =>
      if pyTruthy v then empty_analysis ts "Analysis error"
      else empty_analysis ts "No content to analyze"

/-!
Schema builder (schema_builder.py).  The wall-clock and the third-party
dateutil parser are parameters of the model (`BuildEnv`).  As in the
analyzer, reads that Python would crash on for ill-typed values are modelled
by documented defaults; the claims below concern well-typed records.
-/

/-- A parsed datetime as far as this pipeline observes it: calendar fields
plus an optional UTC offset in minutes (none = naive).  Sub-second precision
is not modelled; no claim depends on it. -/
structure DT where
  year : Nat
  month : Nat
  day : Nat
  hour : Nat
  minute : Nat
  second : Nat
  tz : Option Int
  deriving Repr, DecidableEq

/-- Left-pad a numeral with zeros to the given width. -/
def padZ (w n : Nat) : String :=
  let s := toString n
  String.mk (List.replicate (w - s.length) '0') ++ s

def isoOffset (o : Int) : String :=
  if o ≥ 0 then "+" ++ padZ 2 (o.toNat / 60) ++ ":" ++ padZ 2 (o.toNat % 60)
  else "-" ++ padZ 2 ((-o).toNat / 60) ++ ":" ++ padZ 2 ((-o).toNat % 60)

/-- Python `datetime.isoformat()`. -/
def DT.isoformat (d : DT) : String :=
  padZ 4 d.year ++ "-" ++ padZ 2 d.month ++ "-" ++ padZ 2 d.day ++ "T" ++
  padZ 2 d.hour ++ ":" ++ padZ 2 d.minute ++ ":" ++ padZ 2 d.second ++
  (match d.tz with
   | none => ""
   | some o => isoOffset o)

/-- Environment of the schema builder: the current UTC time and the
dateutil parser, which returns none where the library would raise. -/
structure BuildEnv where
  now : DT
  parseDate : String → Option DT

/-- The pass-through test of schema_builder.py line 369: the string contains
'T', and contains 'Z' or has a '+' among its last six characters. -/
def isoLike (s : String) : Bool :=
  strContains s "T" &&
    (strContains s "Z" || strContains (String.mk (s.toList.drop (s.length - 6))) "+")

/-- schema_builder.py `_format_date` (lines 365-384): pass ISO-looking
strings through unchanged; otherwise parse, defaulting the timezone to UTC
when the parsed datetime is naive, and render ISO-8601; when parsing raises,
fall back to the current UTC time. -/
def format_date (env : BuildEnv) (s : String) : String :=
  if isoLike s then s
  else
    match env.parseDate s with
    | some dt => (if dt.tz = none then { dt with tz := some 0 } else dt).isoformat
    | none => env.now.isoformat

/-- `_format_date` applied to a dict value: a non-string makes the 'in' test
raise, which the function's own except turns into the current-time fallback. -/
def formatDateVal (env : BuildEnv) (v : Value) : String :=
  match v with
  | vstr s => format_date env s
  | _ => env.now.isoformat

/-- Python `x[:n]` on a dynamic value (string or list slicing). -/
def pySliceV (v : Value) (n : Nat) : Value :=
  match v with
  | vstr s => vstr (pyTake s n)
  | varr xs => varr (xs.take n)
  | w => w

/-- Python `str(x)` as used in f-strings, for the scalar values that occur
in the pipeline. -/
def pyStr (v : Value) : String :=
  match v with
  | vstr s => s
  | vnum q => if q.den = 1 then toString q.num else toString q
  | vbool b => if b then "True" else "False"
  | vnull => "None"
  | varr _ => "[...]"
  | vobj _ => "{...}"

/-- Python `x[:n]` as the raising operation it is: strings and lists slice
(to `pySliceV`); any other operand — int, float, bool, None, dict — raises
TypeError (unsubscriptable, or unhashable slice for a dict). -/
def pySliceE (v : Value) (n : Nat) : Except Err Value :=
  match v with
  | vstr s => Except.ok (vstr (pyTake s n))
  | varr xs => Except.ok (varr (xs.take n))
  | _ => Except.error ⟨"TypeError: not subscriptable"⟩

/-- schema_builder.py `_add_core_properties` (lines 95-124): headline
truncated to 110, description to 160, dates normalized, fixed language.
The function has no try/except of its own: slicing a truthy non-sliceable
title or description raises out of it to `build_blogposting_schema`'s
except clause, while `_format_date` catches internally. -/
def add_core_propertiesE (env : BuildEnv) (cd : Obj) : Except Err Obj :=
  (if pyTruthy (dgetD cd "title" vnull) then
     pySliceE (dgetD cd "title" vnull) 110 >>= fun t110 =>
     Except.ok (dset (dset [] "headline" t110) "name" (dgetD cd "title" vnull))
   else Except.ok []) >>= fun acc =>
  let acc :=
    if pyTruthy (dgetD cd "url" vnull) then dset acc "url" (dgetD cd "url" vnull) else acc
  let acc :=
    if pyTruthy (dgetD cd "publish_date" vnull) then
      dset (dset acc "datePublished" (vstr (formatDateVal env (dgetD cd "publish_date" vnull))))
        "dateModified" (vstr (formatDateVal env (dgetD cd "publish_date" vnull)))
    else acc
  (if pyTruthy (dgetD cd "description" vnull) then
     pySliceE (dgetD cd "description" vnull) 160 >>= fun d160 =>
     Except.ok (dset acc "description" d160)
   else Except.ok acc) >>= fun acc =>
  let acc := dset acc "inLanguage" (vstr "en-US")
  Except.ok
    (if pyTruthy (dgetD cd "word_count" vnull) then
       dset acc "wordCount" (dgetD cd "word_count" vnull)
     else acc)

/-- schema_builder.py `_build_author_schema` (lines 126-154). -/
def build_author_schema (cd : Obj) (sc : Option Obj) : Option Obj :=
  let authorName := dgetD cd "author" (vstr "Unknown Author")
  if pyTruthy authorName && authorName ≠ vstr "Unknown Author" then
    let a₀ : Obj := [("@type", vstr "Person"), ("name", authorName)]
    let a₁ :=
      match sc with
      | some conf =>
          if conf ≠ [] then
            match dget conf "author" with
            | some (vobj ac) =>
                let a := a₀
                let a := if pyTruthy (dgetD ac "url" vnull) then
                    dset a "url" (dgetD ac "url" vnull) else a
                let a := if pyTruthy (dgetD ac "sameAs" vnull) then
                    dset a "sameAs" (dgetD ac "sameAs" vnull) else a
                let a := if pyTruthy (dgetD ac "jobTitle" vnull) then
                    dset a "jobTitle" (dgetD ac "jobTitle" vnull) else a
                let a := if pyTruthy (dgetD ac "worksFor" vnull) then
                    dset a "worksFor" (vobj [("@type", vstr "Organization"),
                                             ("name", dgetD ac "worksFor" vnull)])
                  else a
                a
            | some _ => a₀
            | none => a₀
          else a₀
      | none => a₀
    some a₁
  else none

/-- CPython `urlsplit` raises `ValueError("Invalid IPv6 URL")` exactly when
the authority part has an unmatched square bracket; every other string
parses without raising. -/
def invalidIPv6 (url : String) : Bool :=
  let netloc := (pyUrlparse url).netloc
  (strContains netloc "[" && !strContains netloc "]") ||
  (strContains netloc "]" && !strContains netloc "[")

/-- Python `urlparse(x)` as the raising operation it is: on a string it
raises only for an unmatched bracket in the authority (CPython's
Invalid-IPv6-URL check); on a non-string operand the argument coercion
raises. -/
def pyUrlparseE : Value → Except Err UrlParts
  | vstr s =>
      if invalidIPv6 s then Except.error ⟨"ValueError: Invalid IPv6 URL"⟩
      else Except.ok (pyUrlparse s)
  | _ => Except.error ⟨"TypeError: urlparse on a non-string"⟩

/-- The publisher record of schema_builder.py `_build_publisher_schema`
(lines 156-187) once the domain string is known. -/
def publisher_from_domain (sc : Option Obj) (domain : String) : Obj :=
  let base : Obj :=
    [("@type", vstr "Organization"),
     ("name", vstr (if domain ≠ "" then pyTitle (pyReplace domain "www." "")
                    else "Blog Publisher"))]
  match sc with
  | some conf =>
      if conf ≠ [] then
        match dget conf "publisher" with
        | some (vobj pc) =>
            let p := dset base "name" (dgetD pc "name" (dgetD base "name" vnull))
            let p := if pyTruthy (dgetD pc "url" vnull) then
                dset p "url" (dgetD pc "url" vnull) else p
            let p := if pyTruthy (dgetD pc "logo" vnull) then
                dset p "logo" (vobj [("@type", vstr "ImageObject"),
                                     ("url", dgetD pc "logo" vnull),
                                     ("width", dgetD pc "logo_width" (vnum 600)),
                                     ("height", dgetD pc "logo_height" (vnum 60))])
              else p
            let p := if pyTruthy (dgetD pc "sameAs" vnull) then
                dset p "sameAs" (dgetD pc "sameAs" vnull) else p
            p
        | some _ => base
        | none => base
      else base
  | none => base

/-- schema_builder.py `_build_publisher_schema` (lines 156-187): the domain
is `urlparse(url).netloc if url else 'example.com'`, so a truthy non-string
url or an unmatched-bracket URL string raises; the function has no
try/except, the exception escapes to `build_blogposting_schema`. -/
def build_publisher_schemaE (sc : Option Obj) (url : Value) : Except Err Obj :=
  (if pyTruthy url then (pyUrlparseE url).map (fun p => p.netloc)
   else Except.ok "example.com") >>= fun domain =>
  Except.ok (publisher_from_domain sc domain)

/-- schema_builder.py `_build_image_schema` (lines 189-207). -/
def build_image_schema (cd : Obj) : Option Obj :=
  let iu := dgetD cd "image_url" vnull
  if pyTruthy iu then
    let im : Obj := [("@type", vstr "ImageObject"), ("url", iu),
                     ("width", vnum 1200), ("height", vnum 630)]
    some (if pyTruthy (dgetD cd "title" vnull) then
            dset im "caption" (dgetD cd "title" vnull)
          else im)
  else none

/-- The articleBody truncation of schema_builder.py lines 212-216:
`len(content)` raises TypeError for numbers, booleans and None; a long
string is sliced and suffixed with "...", while a long list raises on the
list-plus-string concatenation and a long dict on the slice subscript. -/
def contentTruncE : Value → Except Err Value
  | vstr s => Except.ok (vstr (if s.length > 5000 then pyTake s 5000 ++ "..." else s))
  | varr xs =>
      if xs.length > 5000 then Except.error ⟨"TypeError: list + str"⟩
      else Except.ok (varr xs)
  | vobj fs =>
      if fs.length > 5000 then Except.error ⟨"TypeError: unhashable slice"⟩
      else Except.ok (vobj fs)
  | _ => Except.error ⟨"TypeError: object has no len"⟩

/-- Python `x[0]`: first character of a non-empty string, head of a
non-empty list; IndexError on an empty one, KeyError on a (string-keyed)
dict, TypeError on every other operand. -/
def pySub0E : Value → Except Err Value
  | vstr s =>
      match s.toList with
      | [] => Except.error ⟨"IndexError"⟩
      | c :: _ => Except.ok (vstr (String.mk [c]))
  | varr xs =>
      match xs with
      | [] => Except.error ⟨"IndexError"⟩
      | x :: _ => Except.ok x
  | _ => Except.error ⟨"TypeError or KeyError"⟩

/-- schema_builder.py `_add_content_properties` (lines 209-230), with the
raising subscripts and slices explicit; the function has no try/except of
its own. -/
def add_content_propertiesE (schema : Obj) (cd : Obj) : Except Err Obj :=
  (if pyTruthy (dgetD cd "content" vnull) then
     contentTruncE (dgetD cd "content" vnull) >>= fun cv =>
     Except.ok (dset schema "articleBody" cv)
   else Except.ok schema) >>= fun s =>
  (if pyTruthy (dgetD cd "keywords" vnull) then
     pySub0E (dgetD cd "keywords" vnull) >>= fun first =>
     Except.ok (dset s "articleSection" first)
   else Except.ok s) >>= fun s =>
  (if pyTruthy (dgetD cd "keywords" vnull) then
     pySliceE (dgetD cd "keywords" vnull) 10 >>= fun kw =>
     Except.ok (dset s "keywords" kw)
   else Except.ok s) >>= fun s =>
  Except.ok
    (if pyTruthy (dgetD cd "reading_time" vnull) then
       dset s "timeRequired" (vstr ("PT" ++ pyStr (dgetD cd "reading_time" vnull) ++ "M"))
     else s)

/-- The keyword merge of schema_builder.py lines 246-250 and 265-269:
concatenate, deduplicate as a set, cap.  Python's set-iteration order is
unspecified; the model fixes first-occurrence order, which realizes one
admissible order and the exact cardinality. -/
def merge_keywords (cap : Nat) (existing extra : List Value) : List Value :=
  (firstDedup (existing ++ extra)).take cap

/-- The list comprehension `[kw['word'] for kw in top_keywords[:15]]`; an
entry without the shape the analyzer produces makes the subscription raise. -/
def analyzed_words (tk : List Value) : Except Unit (List Value) :=
  (tk.take 15).mapM (fun kv =>
    match kv with
    | vobj o =>
        match dget o "word" with
        | some w => Except.ok w
        | none => Except.error ()
    | _ => Except.error ())

/-- The list comprehension `[topic.lower() for topic in main_topics]`. -/
def lowered_topics (ts : List Value) : Except Unit (List Value) :=
  ts.mapM (fun t =>
    match t with
    | vstr s => Except.ok (vstr (pyLower s))
    | _ => Except.error ())

/-- The content-metrics step of schema_builder.py `_enhance_with_analysis`
(lines 238-244). -/
def enh_metrics (ad : Obj) (s : Obj) : Except Obj Obj :=
  match dget ad "content_metrics" with
  | some (vobj m) =>
      pure (if pyTruthy (dgetD m "word_count" vnull) then
              dset s "wordCount" (dgetD m "word_count" vnull)
            else s)
  | some _ => Except.error s
  | none => pure s

/-- The keyword-analysis step of `_enhance_with_analysis` (lines 246-250). -/
def enh_keywords (ad : Obj) (s : Obj) : Except Obj Obj :=
  match dget ad "keyword_analysis" with
  | some (vobj kd) =>
      if pyTruthy (dgetD kd "top_keywords" vnull) then
        match dgetD kd "top_keywords" vnull with
        | varr tk =>
            (match analyzed_words tk with
             | Except.ok aw =>
                 (match dgetD s "keywords" (varr []) with
                  | varr ex => pure (dset s "keywords" (varr (merge_keywords 20 ex aw)))
                  | _ => Except.error s)
             | Except.error _ => Except.error s)
        | _ => Except.error s
      else pure s
  | some _ => Except.error s
  | none => pure s

/-- The readability step of `_enhance_with_analysis` (lines 252-258). -/
def enh_readability (ad : Obj) (s : Obj) : Except Obj Obj :=
  match dget ad "readability" with
  | some (vobj r) =>
      pure (dset s "about"
        (vobj [("@type", vstr "Thing"),
               ("name", vstr ("Content with " ++
                 pyStr (dgetD r "reading_level" (vstr "Standard")) ++ " reading level"))]))
  | some _ => Except.error s
  | none => pure s

/-- The main-topics part of the AI-insights step (lines 262-269). -/
def enh_topics (ai : Obj) (s : Obj) : Except Obj Obj :=
  if pyTruthy (dgetD ai "main_topics" vnull) then
    match dgetD ai "main_topics" vnull with
    | varr ts =>
        (match lowered_topics ts with
         | Except.ok lts =>
             (match dgetD s "keywords" (varr []) with
              | varr ex => pure (dset s "keywords" (varr (merge_keywords 25 ex lts)))
              | _ => Except.error s)
         | Except.error _ => Except.error s)
    | vstr st =>
        (match dgetD s "keywords" (varr []) with
         | varr ex =>
             pure (dset s "keywords" (varr (merge_keywords 25 ex
               (st.toList.map (fun c => vstr (String.mk [c.toLower]))))))
         | _ => Except.error s)
    | _ => Except.error s
  else pure s

/-- The AI-insights step of `_enhance_with_analysis` (lines 260-277). -/
def enh_ai (ad : Obj) (s : Obj) : Except Obj Obj :=
  match dget ad "ai_insights" with
  | some (vobj ai) =>
      enh_topics ai s >>= fun s₁ =>
      pure (if pyTruthy (dgetD ai "target_audience" vnull) then
              dset s₁ "audience" (vobj [("@type", vstr "Audience"),
                                        ("audienceType", dgetD ai "target_audience" vnull)])
            else s₁)
  | some _ => pure s
  | none => pure s

/-- The body of schema_builder.py `_enhance_with_analysis` (lines 232-279),
written in an exception monad whose error value carries the schema as
updated so far: the source's own except clause returns with the partial
updates kept. -/
def enhance_go (schema : Obj) (ad : Obj) : Except Obj Obj :=
  enh_metrics ad schema >>= fun s₁ =>
  enh_keywords ad s₁ >>= fun s₂ =>
  enh_readability ad s₂ >>= fun s₃ =>
  enh_ai ad s₃

/-- schema_builder.py `_enhance_with_analysis` with its except clause: on an
internal exception the schema keeps the updates already applied. -/
def enhance_with_analysis (schema : Obj) (ad : Obj) (_cd : Obj) : Obj :=
  match enhance_go schema ad with
  | Except.ok s => s
  | Except.error s => s

/-- schema_builder.py `_add_technical_metadata` (lines 281-310). -/
def add_technical_metadata (env : BuildEnv) (schema cd : Obj) : Obj :=
  let s := dset schema "encodingFormat" (vstr "text/html")
  let s :=
    if pyTruthy (dgetD cd "url" vnull) then
      dset s "contentLocation" (vobj [("@type", vstr "Place"), ("url", dgetD cd "url" vnull)])
    else s
  let s := dset s "accessibilityFeature" (varr [vstr "readingOrder", vstr "structuralNavigation"])
  let s := dset s "contentRating" (vstr "General")
  let s :=
    if pyTruthy (dgetD cd "url" vnull) then
      let domain := (pyUrlparse (getStrD cd "url" "")).netloc
      let s := dset s "copyrightHolder"
        (vobj [("@type", vstr "Organization"),
               ("name", vstr (if domain ≠ "" then pyTitle (pyReplace domain "www." "")
                              else "Publisher"))])
      dset s "copyrightYear" (vnum env.now.year)
    else s
  s

/-- A breadcrumb label: hyphens and underscores to spaces, then title-case
(schema_builder.py line 344). -/
def breadcrumbLabel (part : String) : String :=
  pyTitle (pyReplace (pyReplace part "-" " ") "_" " ")

/-- The intermediate-item loop of schema_builder.py lines 338-346, with its
running position counter and accumulated path. -/
def intermediate_crumbs (base : String) : List String → Nat → String → List Value
  | [], _, _ => []
  | part :: rest, pos, curPath =>
      let newPath := curPath ++ "/" ++ part
      vobj [("@type", vstr "ListItem"), ("position", vnum pos),
            ("name", vstr (breadcrumbLabel part)), ("item", vstr (base ++ newPath))] ::
        intermediate_crumbs base rest (pos + 1) newPath

/-- schema_builder.py `_build_breadcrumb_schema` (lines 312-363). -/
def build_breadcrumb_schema (cd : Obj) (_sc : Option Obj) : Option Obj :=
  let url := getStrD cd "url" ""
  if url = "" then none
  else
    let parsed := pyUrlparse url
    let path_parts := (pySplitOn parsed.path "/").filter (· ≠ "")
    if path_parts.length < 2 then none
    else
      let base := parsed.scheme ++ "://" ++ parsed.netloc
      let home : Value := vobj [("@type", vstr "ListItem"), ("position", vnum 1),
                                ("name", vstr "Home"), ("item", vstr base)]
      let items := home :: intermediate_crumbs base path_parts.dropLast 2 ""
      let lastItem : Value := vobj [("@type", vstr "ListItem"),
                                    ("position", vnum (items.length + 1)),
                                    ("name", dgetD cd "title" (vstr "Current Page")),
                                    ("item", vstr url)]
      some [("@type", vstr "BreadcrumbList"), ("itemListElement", varr (items ++ [lastItem]))]

/-- Whether the pruning pass deletes a value outright: None, empty string or
empty list (schema_builder.py line 391). -/
def isRemovedVal : Value → Bool
  | vnull => true
  | vstr s => s == ""
  | varr xs => xs.isEmpty
  | _ => false

/-- Whether a list element survives the pruning pass: not None and not the
empty string (schema_builder.py line 397). -/
def keptListItem : Value → Bool
  | vnull => false
  | vstr s => !(s == "")
  | _ => true

mutual

/-- schema_builder.py `_validate_and_clean_schema` (lines 386-403): drop
None/""/[] values, recurse into dict values (dropping those left empty),
filter None/"" elements out of list values (dropping lists left empty), keep
everything else.  List elements themselves are not recursed into. -/
def clean_schema : Obj → Obj
  | [] => []
  | (k, v) :: rest =>
      if isRemovedVal v then clean_schema rest
      else cleanKeep k v (clean_schema rest)

/-- The handling of one kept entry of `clean_schema`: recurse into a dict
value, shallow-filter a list value, keep a scalar. -/
def cleanKeep (k : String) : Value → Obj → Obj
  | vobj fs, tail =>
      let c := clean_schema fs
      if c.isEmpty then tail else (k, vobj c) :: tail
  | varr xs, tail =>
      let c := xs.filter keptListItem
      if c.isEmpty then tail else (k, varr c) :: tail
  | w, tail => (k, w) :: tail

end

/-- schema_builder.py `_minimal_schema` (lines 405-421). -/
def minimal_schema (env : BuildEnv) (cd : Obj) : Obj :=
  [("@context", vstr "https://schema.org"),
   ("@type", vstr "BlogPosting"),
   ("headline", dgetD cd "title" (vstr "Blog Post")),
   ("url", dgetD cd "url" (vstr "")),
   ("datePublished", vstr env.now.isoformat),
   ("author", vobj [("@type", vstr "Person"),
                    ("name", dgetD cd "author" (vstr "Unknown Author"))]),
   ("publisher", vobj [("@type", vstr "Organization"), ("name", vstr "Blog Publisher")])]

def optDset (d : Obj) (k : String) : Option Obj → Obj
  | some a => dset d k (vobj a)
  | none => d

/-- The conditional `_enhance_with_analysis` call of schema_builder.py
lines 63-64: only applied when analysis data is present and non-empty. -/
def maybe_enhance (schema : Obj) (ad : Option Obj) (cd : Obj) : Obj :=
  match ad with
  | some a => if a.isEmpty then schema else enhance_with_analysis schema a cd
  | none => schema

/-- The try body of schema_builder.py `build_blogposting_schema`
(lines 38-89) in an exception monad.  `_add_core_properties`,
`_build_publisher_schema` and `_add_content_properties` can raise;
`_build_author_schema` and `_build_image_schema` only read with defaults,
`_enhance_with_analysis` and `_build_breadcrumb_schema` have their own
try/except, the validation pass is pure, and `_add_technical_metadata`'s
urlparse runs only on a url the earlier publisher call already parsed
without raising, so all of those are total here. -/
def build_schema_try (env : BuildEnv) (cd : Obj) (ad : Option Obj)
    (sc : Option Obj) : Except Err Obj :=
  add_core_propertiesE env cd >>= fun core =>
  let schema : Obj :=
    [("@context", vstr "https://schema.org"),
     ("@type", vstr "BlogPosting"),
     ("@id", dgetD cd "url" (vstr "")),
     ("mainEntityOfPage", vobj [("@type", vstr "WebPage"), ("@id", dgetD cd "url" (vstr ""))])]
  let schema := dupdate schema core
  let schema := optDset schema "author" (build_author_schema cd sc)
  build_publisher_schemaE sc (dgetD cd "url" (vstr "")) >>= fun pub =>
  let schema := dset schema "publisher" (vobj pub)
  let schema := optDset schema "image" (build_image_schema cd)
  add_content_propertiesE schema cd >>= fun schema =>
  let schema := maybe_enhance schema ad cd
  let schema := add_technical_metadata env schema cd
  let schema := optDset schema "breadcrumb" (build_breadcrumb_schema cd sc)
  Except.ok (clean_schema schema)

/-- schema_builder.py `build_blogposting_schema` (lines 25-93): the try
body, and on any exception the except clause's `_minimal_schema` fallback,
returned raw — it goes through no validation pass, and its headline is the
unsliced title value. -/
def build_blogposting_schema (env : BuildEnv) (cd : Obj) (ad : Option Obj)
    (sc : Option Obj) : Obj :=
  match build_schema_try env cd ad sc with
  | Except.ok schema => schema
  | Except.error _ => minimal_schema env cd

/-- A document on which every query finds nothing (a well-formed page with
none of the searched structure). -/
def trivialSoup : Soup :=
  { selOne := fun _ => .ok none, selAll := fun _ => .ok [],
    findTag := fun _ => .ok none, cleanedText := fun _ _ => .ok none,
    ldAuthor := .ok none }

/-- A document on which every query raises (a totally malformed parse). -/
def failSoup : Soup :=
  { selOne := fun _ => .error ⟨"parse failure"⟩, selAll := fun _ => .error ⟨"parse failure"⟩,
    findTag := fun _ => .error ⟨"parse failure"⟩,
    cleanedText := fun _ _ => .error ⟨"parse failure"⟩,
    ldAuthor := .error ⟨"parse failure"⟩ }

mutual

/-- Whether a value equal to null, the empty string or the empty array
occurs anywhere in a value, at any nesting depth. -/
def deepHasEmpty : Value → Bool
  | vnull => true
  | vbool _ => false
  | vnum _ => false
  | vstr s => s == ""
  | varr xs => xs.isEmpty || deepHasEmptyList xs
  | vobj fs => deepHasEmptyFields fs

def deepHasEmptyList : List Value → Bool
  | [] => false
  | x :: xs => deepHasEmpty x || deepHasEmptyList xs

def deepHasEmptyFields : List (String × Value) → Bool
  | [] => false
  | (_, v) :: rest => deepHasEmpty v || deepHasEmptyFields rest

end

mutual

/-- What the pruning pass actually guarantees of a field value: not
null/""/[]/empty-object, nested objects recursively pruned, arrays free of
null/"" elements at their top level only. -/
def fieldOk : Value → Bool
  | vnull => false
  | vbool _ => true
  | vnum _ => true
  | vstr s => !(s == "")
  | varr xs => !xs.isEmpty && xs.all keptListItem
  | vobj fs => !fs.isEmpty && fieldsOk fs

def fieldsOk : List (String × Value) → Bool
  | [] => true
  | (_, v) :: rest => fieldOk v && fieldsOk rest

end

/-- The truncation discipline of claim C4 for one schema entry: a headline
entry holds a 110-slice, a description entry holds a 160-slice, and any
other entry is at neither key. -/
def trimPairOk (p : String × Value) : Prop :=
  (p.1 = "headline" ∧ ∃ v, p.2 = pySliceV v 110) ∨
  (p.1 = "description" ∧ ∃ v, p.2 = pySliceV v 160) ∨
  (p.1 ≠ "headline" ∧ p.1 ≠ "description")

/-- Every entry of a dict obeys the truncation discipline. -/
def trimOk (d : Obj) : Prop := ∀ p ∈ d, trimPairOk p

/-- Both possible outcomes of an exception-monad builder step obey the
truncation discipline. -/
def trimOkE (x : Except Obj Obj) : Prop :=
  ∀ r, x = Except.ok r ∨ x = Except.error r → trimOk r

/-- The ok-outcome of a raising builder step obeys the truncation
discipline (an error instead aborts the build to the minimal schema). -/
def trimOkR (x : Except Err Obj) : Prop :=
  ∀ r, x = Except.ok r → trimOk r

/-! Basic lemmas about the dict operations. -/

theorem dget_dset_self : ∀ (d : Obj) (k : String) (v : Value), dget (dset d k v) k = some v
  | [], k, v => by simp [dset, dget]
  | (k₀, v₀) :: rest, k, v => by
      by_cases h : k₀ = k
      · simp [dset, dget, h]
      · simp [dset, dget, h, dget_dset_self rest k v]

theorem dget_dset_ne : ∀ (d : Obj) (k' k : String) (v : Value), k' ≠ k →
    dget (dset d k' v) k = dget d k
  | [], k', k, v, h => by simp [dset, dget, h]
  | (k₀, v₀) :: rest, k', k, v, h => by
      by_cases h₀ : k₀ = k'
      · simp [dset, dget, h₀, h]
      · by_cases h₁ : k₀ = k
        · simp [dset, dget, h₀, h₁, Ne.symm h]
        · simp [dset, dget, h₀, h₁, dget_dset_ne rest k' k v h]

theorem dget_append : ∀ (d₁ d₂ : Obj) (k : String),
    dget (d₁ ++ d₂) k = (dget d₁ k).orElse (fun _ => dget d₂ k)
  | [], d₂, k => by simp [dget]
  | (k₀, v₀) :: rest, d₂, k => by
      by_cases h : k₀ = k
      · simp [dget, h]
      · simp [dget, h, dget_append rest d₂ k]

theorem dget_none_of_keys : ∀ (d : Obj) (k : String), (∀ p ∈ d, p.1 ≠ k) → dget d k = none
  | [], _, _ => rfl
  | (k₀, v₀) :: rest, k, h => by
      have hk₀ : k₀ ≠ k := h (k₀, v₀) (List.mem_cons_self _ _)
      simp [dget, hk₀]
      exact dget_none_of_keys rest k (fun p hp => h p (List.mem_cons_of_mem _ hp))

theorem dget_some_key_mem : ∀ (d : Obj) (k : String) (v : Value),
    dget d k = some v → (k, v) ∈ d
  | [], k, v, h => by simp [dget] at h
  | (k₀, v₀) :: rest, k, v, h => by
      by_cases hk : k₀ = k
      · subst hk
        simp [dget] at h
        subst h
        exact List.mem_cons_self _ _
      · simp [dget, hk] at h
        exact List.mem_cons_of_mem _ (dget_some_key_mem rest k v h)

/-- The keys of a dict are pairwise distinct (true of every dict the model
builds, since `dset` never duplicates a key). -/
def keysNodup (d : Obj) : Prop := (d.map Prod.fst).Nodup

theorem dget_eq_none_of_not_mem_keys (d : Obj) (k : String)
    (h : k ∉ d.map Prod.fst) : dget d k = none := by
  refine dget_none_of_keys d k (fun p hp hk => h ?_)
  exact hk ▸ List.mem_map_of_mem Prod.fst hp

theorem dget_dupdate_notin : ∀ (o d : Obj) (k : String), (∀ p ∈ o, p.1 ≠ k) →
    dget (dupdate d o) k = dget d k
  | [], d, k, _ => rfl
  | (k₀, v₀) :: rest, d, k, h => by
      have hk₀ : k₀ ≠ k := h (k₀, v₀) (List.mem_cons_self _ _)
      have hrest : ∀ p ∈ rest, p.1 ≠ k := fun p hp => h p (List.mem_cons_of_mem _ hp)
      show dget (dupdate (dset d k₀ v₀) rest) k = dget d k
      rw [dget_dupdate_notin rest (dset d k₀ v₀) k hrest, dget_dset_ne d k₀ k v₀ hk₀]

theorem dget_dupdate : ∀ (o d : Obj) (k : String), keysNodup o →
    dget (dupdate d o) k =
      match dget o k with
      | some v => some v
      | none => dget d k
  | [], d, k, _ => rfl
  | (k₀, v₀) :: rest, d, k, h => by
      have h' : k₀ ∉ rest.map Prod.fst ∧ (rest.map Prod.fst).Nodup := by
        have h₂ := h
        rw [keysNodup, List.map_cons, List.nodup_cons] at h₂
        exact h₂
      have hnk : k₀ ∉ rest.map Prod.fst := h'.1
      have hrest : keysNodup rest := h'.2
      show dget (dupdate (dset d k₀ v₀) rest) k =
        match dget ((k₀, v₀) :: rest) k with
        | some v => some v
        | none => dget d k
      rw [dget_dupdate rest (dset d k₀ v₀) k hrest]
      by_cases hk : k₀ = k
      · subst hk
        rw [dget_eq_none_of_not_mem_keys rest k₀ hnk]
        simp [dget, dget_dset_self]
      · simp [dget, hk, dget_dset_ne d k₀ k v₀ hk]

theorem mem_dset : ∀ (d : Obj) (k : String) (v : Value) (p : String × Value),
    p ∈ dset d k v → p ∈ d ∨ p = (k, v)
  | [], k, v, p, h => by simpa [dset] using h
  | (k₀, v₀) :: rest, k, v, p, h => by
      by_cases hk : k₀ = k
      · simp [dset, hk] at h
        rcases h with h | h
        · exact Or.inr (by simp [h])
        · exact Or.inl (List.mem_cons_of_mem _ h)
      · simp [dset, hk] at h
        rcases h with h | h
        · exact Or.inl (by simp [h])
        · rcases mem_dset rest k v p h with h' | h'
          · exact Or.inl (List.mem_cons_of_mem _ h')
          · exact Or.inr h'

theorem mem_dupdate : ∀ (o d : Obj) (p : String × Value),
    p ∈ dupdate d o → p ∈ d ∨ p ∈ o
  | [], d, p, h => Or.inl h
  | (k₀, v₀) :: rest, d, p, h => by
      rcases mem_dupdate rest (dset d k₀ v₀) p h with h' | h'
      · rcases mem_dset d k₀ v₀ p h' with h'' | h''
        · exact Or.inl h''
        · exact Or.inr (by simp [h''])
      · exact Or.inr (List.mem_cons_of_mem _ h')

theorem trySteps_preserve (P : Obj → Prop) :
    ∀ (steps : List (Obj → Except Err Obj)) (d : Obj), P d →
      (∀ f ∈ steps, ∀ d', P d' → ∀ d'', f d' = .ok d'' → P d'') →
      P (trySteps steps d).1
  | [], d, hd, _ => hd
  | f :: fs, d, hd, hstep => by
      show P (trySteps (f :: fs) d).1
      rw [trySteps]
      cases hf : f d with
      | ok d' =>
          exact trySteps_preserve P fs d'
            (hstep f (List.mem_cons_self _ _) d hd d' hf)
            (fun g hg => hstep g (List.mem_cons_of_mem _ hg))
      | error e => exact hd

theorem except_map_ok {α β : Type} {x : Except Err α} {g : α → β} {b : β}
    (h : x.map g = .ok b) : ∃ a, x = .ok a ∧ b = g a := by
  cases x with
  | ok a => exact ⟨a, rfl, by simpa [Except.map] using h.symm⟩
  | error e => simp [Except.map] at h

theorem except_bind_ok {α β : Type} {x : Except Err α} {f : α → Except Err β} {b : β}
    (h : (x >>= f) = .ok b) : ∃ a, x = .ok a ∧ f a = .ok b := by
  cases x with
  | ok a => exact ⟨a, rfl, by simpa [Bind.bind, Except.bind] using h⟩
  | error e => simp [Bind.bind, Except.bind] at h

/-! Lemmas about the extractor pipeline. -/

theorem primary_ok_shape (soup : Soup) (u : String) (o : Obj)
    (h : extract_primary_data soup u = .ok o) :
    ∃ hl ds dp dm, o = [("headline", vstr hl), ("description", vstr ds),
      ("datePublished", vstr dp), ("dateModified", vstr dm)] := by
  unfold extract_primary_data at h
  rcases except_bind_ok h with ⟨hl₀, _, h⟩
  rcases except_bind_ok h with ⟨hl₁, _, h⟩
  rcases except_bind_ok h with ⟨d₀, _, h⟩
  rcases except_bind_ok h with ⟨d₁, _, h⟩
  rcases except_bind_ok h with ⟨dp, _, h⟩
  rcases except_bind_ok h with ⟨dm, _, h⟩
  exact ⟨_, _, _, _, (Except.ok.inj h).symm⟩

theorem metadata_ok_shape (soup : Soup) (b : String) (m : Obj)
    (h : extract_additional_metadata soup b = .ok m) :
    ∃ T, extract_body_text soup = .ok T ∧
      dget m "estimatedReadingTime" =
        some (vstr ("PT" ++ toString (max 1 (countWords T / 200)) ++ "M")) ∧
      (∀ p ∈ m, p.1 = "language" ∨ p.1 = "categories" ∨ p.1 = "estimatedReadingTime") ∧
      keysNodup m := by
  unfold extract_additional_metadata at h
  rcases except_bind_ok h with ⟨htag, _, h⟩
  rcases except_bind_ok h with ⟨kwMeta, _, h⟩
  rcases except_bind_ok h with ⟨cats, _, h⟩
  rcases except_bind_ok h with ⟨T, hT, h⟩
  refine ⟨T, hT, ?_⟩
  simp only [Except.ok.injEq] at h
  subst h
  have hm₀ : langMeta htag = ([] : Obj) ∨ ∃ x, langMeta htag = [("language", vstr x)] := by
    rcases htag with _ | el
    · exact Or.inl rfl
    · by_cases hl : el.getAttr "lang" "" ≠ ""
      · exact Or.inr ⟨el.getAttr "lang" "", by simp [langMeta, hl]⟩
      · exact Or.inl (by simp [langMeta, hl])
  rcases hm₀ with h₀ | ⟨x, h₀⟩
  · rw [h₀]
    by_cases hc : cats ≠ []
    · rw [if_pos hc]
      refine ⟨by simp [dget_append, dget], ?_, by simp [keysNodup]⟩
      intro p hp
      simp [List.mem_append] at hp
      rcases hp with hp | hp <;> simp [hp]
    · rw [if_neg hc]
      refine ⟨by simp [dget], ?_, by simp [keysNodup]⟩
      intro p hp
      simp at hp
      simp [hp]
  · rw [h₀]
    by_cases hc : cats ≠ []
    · rw [if_pos hc]
      refine ⟨by simp [dget_append, dget], ?_, by simp [keysNodup]⟩
      intro p hp
      simp [List.mem_append] at hp
      rcases hp with hp | hp | hp <;> simp [hp]
    · rw [if_neg hc]
      refine ⟨by simp [dget_append, dget], ?_, by simp [keysNodup]⟩
      intro p hp
      simp [List.mem_append] at hp
      rcases hp with hp | hp <;> simp [hp]

theorem trySteps_cons (f : Obj → Except Err Obj) (fs : List (Obj → Except Err Obj))
    (d d' : Obj) (hf : f d = .ok d') : trySteps (f :: fs) d = trySteps fs d' := by
  rw [trySteps, hf]

theorem trySteps_cons_fail (f : Obj → Except Err Obj) (fs : List (Obj → Except Err Obj))
    (d : Obj) (e : Err) (hf : f d = .error e) : trySteps (f :: fs) d = (d, false) := by
  rw [trySteps, hf]

theorem trySteps_ok_head (f : Obj → Except Err Obj) (fs : List (Obj → Except Err Obj))
    (d : Obj) (h : (trySteps (f :: fs) d).2 = true) :
    ∃ d', f d = .ok d' ∧ trySteps (f :: fs) d = trySteps fs d' ∧
      (trySteps fs d').2 = true := by
  cases hf : f d with
  | ok d' =>
      refine ⟨d', rfl, by rw [trySteps, hf], ?_⟩
      rw [trySteps, hf] at h
      exact h
  | error e =>
      rw [trySteps, hf] at h
      simp at h

/-- No step of the extraction pipeline touches a key outside the fixed set
of field names it writes. -/
theorem extract_steps_preserve (soup : Soup) (url base : String) (k : String)
    (hk : k ≠ "headline" ∧ k ≠ "description" ∧ k ≠ "datePublished" ∧ k ≠ "dateModified" ∧
          k ≠ "author" ∧ k ≠ "publisher" ∧ k ≠ "image" ∧ k ≠ "bodyText" ∧
          k ≠ "language" ∧ k ≠ "categories" ∧ k ≠ "estimatedReadingTime" ∧ k ≠ "isPartOf") :
    ∀ f ∈ extractSteps soup url base, ∀ d d', f d = .ok d' → dget d' k = dget d k := by
  obtain ⟨h1, h2, h3, h4, h5, h6, h7, h8, h9, h10, h11, h12⟩ := hk
  intro f hf d d' hfd
  simp only [extractSteps, List.mem_cons, List.not_mem_nil, or_false] at hf
  rcases hf with rfl | rfl | rfl | rfl | rfl | rfl | rfl | rfl
  · rcases except_map_ok hfd with ⟨p, hp, rfl⟩
    rcases primary_ok_shape soup url p hp with ⟨hl, ds, dp, dm, rfl⟩
    refine dget_dupdate_notin _ _ _ ?_
    intro q hq
    simp only [List.mem_cons, List.not_mem_nil, or_false] at hq
    rcases hq with rfl | rfl | rfl | rfl
    · exact Ne.symm h1
    · exact Ne.symm h2
    · exact Ne.symm h3
    · exact Ne.symm h4
  · rcases except_map_ok hfd with ⟨a?, _, rfl⟩
    rcases a? with _ | a
    · rfl
    · exact dget_dset_ne d "author" k _ (Ne.symm h5)
  · rcases except_map_ok hfd with ⟨p, _, rfl⟩
    exact dget_dset_ne d "publisher" k _ (Ne.symm h6)
  · rcases except_map_ok hfd with ⟨i?, _, rfl⟩
    rcases i? with _ | i
    · rfl
    · exact dget_dset_ne d "image" k _ (Ne.symm h7)
  · rcases except_map_ok hfd with ⟨t, _, rfl⟩
    exact dget_dset_ne d "bodyText" k _ (Ne.symm h8)
  · rcases except_map_ok hfd with ⟨m, hm, rfl⟩
    rcases metadata_ok_shape soup base m hm with ⟨T, _, _, hkeys, _⟩
    refine dget_dupdate_notin _ _ _ ?_
    intro q hq
    rcases hkeys q hq with h | h | h <;> rw [h]
    · exact Ne.symm h9
    · exact Ne.symm h10
    · exact Ne.symm h11
  · have := Except.ok.inj hfd
    subst this
    exact dget_dset_ne d "isPartOf" k _ (Ne.symm h12)
  · have : d = d' := Except.ok.inj hfd
    subst this
    rfl

/-- A key no pipeline step writes keeps its initial value through the whole
of `extract_all_data`, on the success path and the degraded path alike. -/
theorem extract_all_data_key_untouched (soup : Soup) (url : String) (k : String)
    (hk : k ≠ "headline" ∧ k ≠ "description" ∧ k ≠ "datePublished" ∧ k ≠ "dateModified" ∧
          k ≠ "author" ∧ k ≠ "publisher" ∧ k ≠ "image" ∧ k ≠ "bodyText" ∧
          k ≠ "language" ∧ k ≠ "categories" ∧ k ≠ "estimatedReadingTime" ∧ k ≠ "isPartOf") :
    dget (extract_all_data soup url) k = dget [("url", vstr url)] k := by
  have hstep := extract_steps_preserve soup url (get_base_url url) k hk
  have hP : dget (trySteps (extractSteps soup url (get_base_url url)) [("url", vstr url)]).1 k
      = dget [("url", vstr url)] k :=
    trySteps_preserve (fun d => dget d k = dget [("url", vstr url)] k) _ _ rfl
      (fun f hf d' hd' d'' hok => (hstep f hf d' d'' hok).trans hd')
  unfold extract_all_data
  rcases ht : trySteps (extractSteps soup url (get_base_url url)) [("url", vstr url)]
    with ⟨d, ok⟩
  rw [ht] at hP
  rcases ok with _ | _
  · show dget (minimal_update (get_base_url url) d) k = _
    unfold minimal_update
    rw [dget_dupdate _ _ _ (by simp [keysNodup])]
    have hnone : dget [("headline", vstr ""), ("description", vstr ""), ("bodyText", vstr ""),
        ("publisher", vobj [("name", vstr "Unknown"), ("url", vstr (get_base_url url)),
                            ("logo", vobj [("url", vstr "")])])] k = none := by
      refine dget_none_of_keys _ _ ?_
      intro p hp
      simp only [List.mem_cons, List.not_mem_nil, or_false] at hp
      obtain ⟨h1', h2', _, _, _, h6', _, h8', _, _, _, _⟩ := hk
      rcases hp with rfl | rfl | rfl | rfl
      · exact Ne.symm h1'
      · exact Ne.symm h2'
      · exact Ne.symm h8'
      · exact Ne.symm h6'
    rw [hnone]
    exact hP
  · exact hP

/-- C1: for every parsed document and URL, the extractor's top-level entry
point `extract_all_data` never raises past the component boundary — it is a
total function producing a record whose url field is the input URL — and a
failure of the extraction body degrades to a record with empty headline,
description and body text and publisher name "Unknown". -/
theorem c1_extract_all_data_never_raises (soup : Soup) (url : String) :
    dget (extract_all_data soup url) "url" = some (vstr url) ∧
    (extractOk soup url = false →
      dget (extract_all_data soup url) "headline" = some (vstr "") ∧
      dget (extract_all_data soup url) "description" = some (vstr "") ∧
      dget (extract_all_data soup url) "bodyText" = some (vstr "") ∧
      dget (extract_all_data soup url) "publisher" =
        some (vobj [("name", vstr "Unknown"), ("url", vstr (get_base_url url)),
                    ("logo", vobj [("url", vstr "")])])) := by
  constructor
  · rw [extract_all_data_key_untouched soup url "url" (by decide)]
    simp [dget]
  · intro hfail
    unfold extractOk at hfail
    unfold extract_all_data
    rcases ht : trySteps (extractSteps soup url (get_base_url url)) [("url", vstr url)]
      with ⟨d, ok⟩
    rw [ht] at hfail
    rcases ok with _ | _
    · show dget (minimal_update (get_base_url url) d) "headline" = _ ∧ _
      unfold minimal_update
      refine ⟨?_, ?_, ?_, ?_⟩ <;>
        rw [dget_dupdate _ _ _ (by simp [keysNodup])] <;> simp [dget]
    · simp at hfail

/-- C1 witness: on a document whose every query raises, the body fails and
the caller still receives the degraded record. -/
theorem c1_witness :
    extractOk failSoup "https://example.com/a" = false ∧
    dget (extract_all_data failSoup "https://example.com/a") "headline" = some (vstr "") := by
  refine ⟨by rfl, ?_⟩
  exact ((c1_extract_all_data_never_raises failSoup "https://example.com/a").2 (by rfl)).1

/-- C2: the analyzer reads keys 'content' and 'title' while the extractor
writes 'bodyText' and 'headline'; hence on every record the extractor
produces, `analyze_content` finds no content and returns the degenerate
empty analysis carrying "No content to analyze". -/
theorem c2_analyze_extractor_output_always_empty (cfg : AnalyzerCfg) (ts : String)
    (soup : Soup) (url : String) :
    analyze_content cfg ts (extract_all_data soup url) =
      empty_analysis ts "No content to analyze" := by
  have hc : dget (extract_all_data soup url) "content" = none := by
    rw [extract_all_data_key_untouched soup url "content" (by decide)]
    simp [dget]
  unfold analyze_content
  rw [dgetD, hc]
  simp

/-- C3 counterexample: the claim as stated is false — extraction of a
perfectly well-formed document yields a record with no wordCount field at
all (the source computes the word count in `extract_additional_metadata`
but stores only the reading time derived from it). -/
theorem c3_counterexample :
    extractOk trivialSoup "https://example.com/blog/post" = true ∧
    dget (extract_all_data trivialSoup "https://example.com/blog/post") "wordCount" = none ∧
    dget (extract_all_data trivialSoup "https://example.com/blog/post") "bodyText" =
      some (vstr "") := by
  refine ⟨by rfl, by rfl, by rfl⟩

/-- C3 amended: the extractor's record never contains a wordCount field;
the whitespace-token count of the extracted bodyText is used only to derive
the estimatedReadingTime field, PT max(1, tokens div 200) M, which on every
successful extraction agrees with the bodyText stored in the same record. -/
theorem c3_no_wordcount_reading_time_from_body (soup : Soup) (url : String) :
    dget (extract_all_data soup url) "wordCount" = none ∧
    (extractOk soup url = true → ∀ bt,
      dget (extract_all_data soup url) "bodyText" = some (vstr bt) →
      dget (extract_all_data soup url) "estimatedReadingTime" =
        some (vstr ("PT" ++ toString (max 1 (countWords bt / 200)) ++ "M"))) := by
  constructor
  · rw [extract_all_data_key_untouched soup url "wordCount" (by decide)]
    simp [dget]
  · intro hok bt hbt
    unfold extractOk at hok
    simp only [extractSteps] at hok
    obtain ⟨d₁, hs₁, he₁, hok⟩ := trySteps_ok_head _ _ _ hok
    obtain ⟨d₂, hs₂, he₂, hok⟩ := trySteps_ok_head _ _ _ hok
    obtain ⟨d₃, hs₃, he₃, hok⟩ := trySteps_ok_head _ _ _ hok
    obtain ⟨d₄, hs₄, he₄, hok⟩ := trySteps_ok_head _ _ _ hok
    obtain ⟨d₅, hs₅, he₅, hok⟩ := trySteps_ok_head _ _ _ hok
    obtain ⟨d₆, hs₆, he₆, hok⟩ := trySteps_ok_head _ _ _ hok
    obtain ⟨d₇, hs₇, he₇, hok⟩ := trySteps_ok_head _ _ _ hok
    obtain ⟨d₈, hs₈, he₈, hok⟩ := trySteps_ok_head _ _ _ hok
    have hfin : trySteps (extractSteps soup url (get_base_url url)) [("url", vstr url)]
        = (d₈, true) := by
      simp only [extractSteps]
      rw [he₁, he₂, he₃, he₄, he₅, he₆, he₇, he₈]
      rfl
    have hres : extract_all_data soup url = d₈ := by
      unfold extract_all_data
      rw [hfin]
    rw [hres] at hbt ⊢
    rcases except_map_ok hs₅ with ⟨T, hT, rfl⟩
    rcases except_map_ok hs₆ with ⟨m, hm, rfl⟩
    have hd₇ : d₇ = dset (dupdate (dset d₄ "bodyText" (vstr T)) m) "isPartOf"
        (vobj [("url", vstr (safe_url_join (get_base_url url) "/blog/"))]) :=
      (Except.ok.inj hs₇).symm
    subst hd₇
    have hd₈ : d₈ = dset (dupdate (dset d₄ "bodyText" (vstr T)) m) "isPartOf"
        (vobj [("url", vstr (safe_url_join (get_base_url url) "/blog/"))]) :=
      (Except.ok.inj hs₈).symm
    subst hd₈
    rcases metadata_ok_shape soup (get_base_url url) m hm with ⟨T', hT', hERT, hkeys, hnodup⟩
    have hTT : T' = T := by
      rw [hT] at hT'
      exact (Except.ok.inj hT').symm
    rw [hTT] at hERT
    have hmb : ∀ q ∈ m, q.1 ≠ "bodyText" := by
      intro q hq
      rcases hkeys q hq with h | h | h <;> rw [h] <;> decide
    have hbody : dget (dset (dupdate (dset d₄ "bodyText" (vstr T)) m) "isPartOf"
        (vobj [("url", vstr (safe_url_join (get_base_url url) "/blog/"))])) "bodyText"
        = some (vstr T) := by
      rw [dget_dset_ne _ "isPartOf" "bodyText" _ (by decide),
          dget_dupdate_notin m _ _ hmb, dget_dset_self]
    rw [hbody] at hbt
    have hbtT : bt = T := by
      have h' := Option.some.inj hbt
      exact (Value.vstr.inj h').symm
    subst hbtT
    rw [dget_dset_ne _ "isPartOf" "estimatedReadingTime" _ (by decide),
        dget_dupdate m _ _ hnodup, hERT]

/-- C3 witness: on a concrete successful extraction the reading time is
PT1M, the value determined by the empty body text. -/
theorem c3_witness :
    dget (extract_all_data trivialSoup "https://example.com/blog/post") "estimatedReadingTime"
      = some (vstr ("PT" ++ toString (max 1 (countWords "" / 200)) ++ "M")) :=
  (c3_no_wordcount_reading_time_from_body trivialSoup "https://example.com/blog/post").2
    (by rfl) "" (by rfl)

theorem round2_mem (x : ℚ) (h0 : 0 ≤ x) (h1 : x ≤ 100) :
    0 ≤ round2 x ∧ round2 x ≤ 100 := by
  unfold round2
  constructor
  · apply div_nonneg _ (by norm_num)
    have hz : (0 : ℤ) ≤ pyRound (x * 100) := by
      rw [pyRound_eq_floor]
      refine Int.floor_nonneg.mpr ?_
      have := mul_nonneg h0 (by norm_num : (0:ℚ) ≤ 100)
      linarith
    exact_mod_cast hz
  · rw [div_le_iff₀ (by norm_num : (0:ℚ) < 100)]
    have hz : pyRound (x * 100) ≤ (10000 : ℤ) := by
      rw [pyRound_eq_floor]
      have h2 : x * 100 + 1 / 2 ≤ (10000 : ℚ) + 1 / 2 := by nlinarith
      calc ⌊x * 100 + 1 / 2⌋ ≤ ⌊(10000 : ℚ) + 1 / 2⌋ := Int.floor_le_floor h2
        _ = 10000 := by norm_num
    have hc : ((pyRound (x * 100) : ℤ) : ℚ) ≤ ((10000 : ℤ) : ℚ) := by exact_mod_cast hz
    calc ((pyRound (x * 100) : ℤ) : ℚ) ≤ ((10000 : ℤ) : ℚ) := hc
      _ = 100 * 100 := by norm_num

/-- C6: the Flesch Reading Ease score computed by the analyzer lies in
[0, 100] for every input text, pathological inputs included: the guard
branch reports 0 and the main branch clamps before rounding. -/
theorem c6_flesch_score_in_range (content : String) (q : ℚ)
    (h : dget (analyze_readability content) "flesch_score" = some (vnum q)) :
    0 ≤ q ∧ q ≤ 100 := by
  dsimp only [analyze_readability] at h
  split at h
  · simp [dget] at h
    rw [← h]
    norm_num
  · simp [dget] at h
    rw [← h]
    apply round2_mem
    · exact le_max_left 0 _
    · exact max_le (by norm_num) (min_le_left 100 _)

/-- C6 witness: the empty text takes the no-words guard branch, whose
score 0 lies inside the interval. -/
theorem c6_witness : 0 ≤ (0 : ℚ) ∧ (0 : ℚ) ≤ 100 :=
  c6_flesch_score_in_range "" 0 (by decide)

/-- C7 counterexample: the claim as stated is false — pruning a mapping
whose array contains an object with an empty-string value returns it
unchanged, and an empty string survives at depth in the result. -/
theorem c7_counterexample :
    clean_schema [("a", varr [vobj [("b", vstr "")]])] =
      [("a", varr [vobj [("b", vstr "")]])] ∧
    deepHasEmptyFields (clean_schema [("a", varr [vobj [("b", vstr "")]])]) = true :=
  ⟨rfl, rfl⟩

theorem all_keptListItem_filter (xs : List Value) :
    (xs.filter keptListItem).all keptListItem = true := by
  rw [List.all_eq_true]
  intro x hx
  exact (List.mem_filter.mp hx).2

mutual

theorem fieldsOk_clean_schema : ∀ d : Obj, fieldsOk (clean_schema d) = true
  | [] => rfl
  | (k, v) :: rest => by
      rw [clean_schema]
      by_cases h : isRemovedVal v = true
      · rw [if_pos h]
        exact fieldsOk_clean_schema rest
      · rw [if_neg h]
        exact fieldsOk_cleanKeep k v (clean_schema rest)
          (by simpa using h) (fieldsOk_clean_schema rest)

theorem fieldsOk_cleanKeep : ∀ (k : String) (v : Value) (tail : Obj),
    isRemovedVal v = false → fieldsOk tail = true → fieldsOk (cleanKeep k v tail) = true
  | k, vnull, tail => by
      intro h ht
      simp [isRemovedVal] at h
  | k, vbool b, tail => by
      intro h ht
      simp [cleanKeep, fieldsOk, fieldOk, ht]
  | k, vnum q, tail => by
      intro h ht
      simp [cleanKeep, fieldsOk, fieldOk, ht]
  | k, vstr s, tail => by
      intro h ht
      simp [isRemovedVal] at h
      simp [cleanKeep, fieldsOk, fieldOk, ht, h]
  | k, varr xs, tail => by
      intro h ht
      simp only [cleanKeep]
      by_cases hc : (xs.filter keptListItem).isEmpty = true
      · simp [hc, ht]
      · simp [hc, fieldsOk, fieldOk, ht, all_keptListItem_filter]
  | k, vobj fs, tail => by
      intro h ht
      simp only [cleanKeep]
      by_cases hc : (clean_schema fs).isEmpty = true
      · simp [hc, ht]
      · simp [hc, fieldsOk, fieldOk, ht, fieldsOk_clean_schema fs]

end

/-- C7 amended: the pruning pass guarantees `fieldsOk`: no object field at
any object-nesting depth is null, "", [] or an empty object, and arrays
contain no null/"" elements at their top level; but elements of arrays are
not recursed into, so objects or arrays nested inside arrays are kept
as-is (see the counterexample to the claim's universal removal). -/
theorem c7_pruning_shallow (d : Obj) : fieldsOk (clean_schema d) = true :=
  fieldsOk_clean_schema d

theorem string_suffix_append (a b : String) :
    String.mk ((a ++ b).toList.drop ((a ++ b).length - b.length)) = b := by
  have hdata : (a ++ b).toList = a.toList ++ b.toList := by
    simp [String.toList]
  have hlen : (a ++ b).length = a.length + b.length := String.length_append a b
  have hlen' : a.toList.length = a.length := rfl
  rw [hdata, hlen, Nat.add_sub_cancel, ← hlen', List.drop_left]
  cases b
  rfl

theorem isoformat_tz0_split (d : DT) :
    DT.isoformat { d with tz := some 0 } =
      (padZ 4 d.year ++ "-" ++ padZ 2 d.month ++ "-" ++ padZ 2 d.day ++ "T" ++
       padZ 2 d.hour ++ ":" ++ padZ 2 d.minute ++ ":" ++ padZ 2 d.second) ++ "+00:00" := by
  show padZ 4 d.year ++ "-" ++ padZ 2 d.month ++ "-" ++ padZ 2 d.day ++ "T" ++
       padZ 2 d.hour ++ ":" ++ padZ 2 d.minute ++ ":" ++ padZ 2 d.second ++ isoOffset 0 = _
  rw [show isoOffset 0 = "+00:00" from rfl]

/-- C8: `_format_date` passes a string through unchanged when it contains
'T' together with the timezone marker the source tests for ('Z' anywhere,
or '+' among the last six characters); otherwise it defers to the date
parser, rendering the parse in ISO-8601 with UTC assumed — a "+00:00"
offset — when the parse is naive, and keeping the parsed offset otherwise;
when parsing fails it substitutes the current UTC time instead of raising. -/
theorem c8_format_date_spec (env : BuildEnv) (s : String) :
    (isoLike s = true → format_date env s = s) ∧
    (isoLike s = false → ∀ dt, env.parseDate s = some dt → dt.tz = none →
      format_date env s = DT.isoformat { dt with tz := some 0 } ∧
      String.mk ((format_date env s).toList.drop ((format_date env s).length - 6)) =
        "+00:00") ∧
    (isoLike s = false → ∀ dt, env.parseDate s = some dt → dt.tz ≠ none →
      format_date env s = dt.isoformat) ∧
    (isoLike s = false → env.parseDate s = none →
      format_date env s = env.now.isoformat) := by
  refine ⟨?_, ?_, ?_, ?_⟩
  · intro h
    simp [format_date, h]
  · intro h dt hdt htz
    have heq : format_date env s = DT.isoformat { dt with tz := some 0 } := by
      simp [format_date, h, hdt, htz]
    refine ⟨heq, ?_⟩
    rw [heq, isoformat_tz0_split]
    have h6 : ("+00:00" : String).length = 6 := rfl
    rw [← h6]
    exact string_suffix_append _ _
  · intro h dt hdt htz
    simp [format_date, h, hdt, htz]
  · intro h hparse
    simp [format_date, h, hparse]

/-- C8 witness: the three behaviours at concrete inputs — an ISO-looking
string passes through, a parsed naive date is rendered with the +00:00
offset, and a parse failure yields the current time. -/
theorem c8_witness :
    format_date ⟨⟨2026, 1, 2, 3, 4, 5, some 0⟩, fun _ => none⟩ "2024-01-02T03:04:05Z" =
      "2024-01-02T03:04:05Z" ∧
    format_date ⟨⟨2026, 1, 2, 3, 4, 5, some 0⟩, fun _ => some ⟨2024, 3, 4, 5, 6, 7, none⟩⟩
      "March 4 2024" = DT.isoformat ⟨2024, 3, 4, 5, 6, 7, some 0⟩ ∧
    format_date ⟨⟨2026, 1, 2, 3, 4, 5, some 0⟩, fun _ => none⟩ "garbage" =
      DT.isoformat ⟨2026, 1, 2, 3, 4, 5, some 0⟩ := by
  refine ⟨(c8_format_date_spec _ _).1 (by rfl), ?_, (c8_format_date_spec _ _).2.2.2 (by rfl) rfl⟩
  exact ((c8_format_date_spec ⟨⟨2026, 1, 2, 3, 4, 5, some 0⟩,
    fun _ => some ⟨2024, 3, 4, 5, 6, 7, none⟩⟩ "March 4 2024").2.1 (by rfl)
    ⟨2024, 3, 4, 5, 6, 7, none⟩ rfl rfl).1

theorem firstDedup_go_nodup {α : Type} [DecidableEq α] :
    ∀ (xs acc : List α), acc.Nodup →
      (xs.foldl (fun acc x => if x ∈ acc then acc else acc ++ [x]) acc).Nodup
  | [], acc, h => h
  | x :: xs, acc, h => by
      rw [List.foldl_cons]
      by_cases hx : x ∈ acc
      · rw [if_pos hx]
        exact firstDedup_go_nodup xs acc h
      · rw [if_neg hx]
        refine firstDedup_go_nodup xs (acc ++ [x]) ?_
        simp [List.nodup_append, h, hx]

theorem firstDedup_nodup {α : Type} [DecidableEq α] (xs : List α) :
    (firstDedup xs).Nodup :=
  firstDedup_go_nodup xs [] List.nodup_nil

theorem merge_keywords_nodup (cap : Nat) (ex extra : List Value) :
    (merge_keywords cap ex extra).Nodup :=
  (List.take_sublist cap _).nodup (firstDedup_nodup (ex ++ extra))

theorem merge_keywords_len (cap : Nat) (ex extra : List Value) :
    (merge_keywords cap ex extra).length ≤ cap :=
  List.length_take_le cap _

/-- C9: keyword merging deduplicates as a set with a deterministic
cardinality and caps the result, at 20 for the analyzer merge and at 25 for
the AI-topics merge; in the claim's concrete scenario the builder merges the
extractor keywords ["seo","content"] with the analyzer keywords
["seo","blog"] into a deduplicated keyword set of cardinality 3. -/
theorem c9_keyword_merge :
    dget (build_blogposting_schema ⟨⟨2026, 1, 2, 3, 4, 5, some 0⟩, fun _ => none⟩
        [("title", vstr "T"), ("keywords", varr [vstr "seo", vstr "content"])]
        (some [("keyword_analysis", vobj [("top_keywords",
          varr [vobj [("word", vstr "seo")], vobj [("word", vstr "blog")]])])])
        none) "keywords" =
      some (varr [vstr "seo", vstr "content", vstr "blog"]) ∧
    (∀ ex aw : List Value,
      (merge_keywords 20 ex aw).Nodup ∧ (merge_keywords 20 ex aw).length ≤ 20) ∧
    (∀ ex ts : List Value,
      (merge_keywords 25 ex ts).Nodup ∧ (merge_keywords 25 ex ts).length ≤ 25) :=
  ⟨rfl,
   fun ex aw => ⟨merge_keywords_nodup 20 ex aw, merge_keywords_len 20 ex aw⟩,
   fun ex ts => ⟨merge_keywords_nodup 25 ex ts, merge_keywords_len 25 ex ts⟩⟩

theorem pyTake_len (s : String) (n : Nat) : (pyTake s n).length ≤ n :=
  List.length_take_le n s.toList

theorem pySliceV_vstr_len : ∀ (v : Value) (n : Nat) (s : String),
    pySliceV v n = vstr s → s.length ≤ n
  | vstr t, n, s, h => by
      rw [show pySliceV (vstr t) n = vstr (pyTake t n) from rfl] at h
      rw [← Value.vstr.inj h]
      exact pyTake_len t n
  | vnull, _, _, h => Value.noConfusion h
  | vbool _, _, _, h => Value.noConfusion h
  | vnum _, _, _, h => Value.noConfusion h
  | varr _, _, _, h => Value.noConfusion h
  | vobj _, _, _, h => Value.noConfusion h

theorem trimPairOk_headline {v : Value} : trimPairOk ("headline", pySliceV v 110) :=
  Or.inl ⟨rfl, v, rfl⟩

theorem trimPairOk_description {v : Value} : trimPairOk ("description", pySliceV v 160) :=
  Or.inr (Or.inl ⟨rfl, v, rfl⟩)

theorem trimPairOk_other {k : String} {v : Value} (h₁ : k ≠ "headline")
    (h₂ : k ≠ "description") : trimPairOk (k, v) :=
  Or.inr (Or.inr ⟨h₁, h₂⟩)

theorem trimOk_nil : trimOk [] := fun p hp => absurd hp (List.not_mem_nil p)

theorem trimOk_dset {d : Obj} {k : String} {v : Value} (hd : trimOk d)
    (hv : trimPairOk (k, v)) : trimOk (dset d k v) := fun p hp =>
  (mem_dset d k v p hp).elim (hd p) (fun he => he ▸ hv)

theorem trimOk_ite (c : Prop) [Decidable c] {d₁ d₂ : Obj} (h₁ : trimOk d₁)
    (h₂ : trimOk d₂) : trimOk (if c then d₁ else d₂) := by
  by_cases hc : c
  · rwa [if_pos hc]
  · rwa [if_neg hc]

theorem trimOk_dupdate {d o : Obj} (hd : trimOk d) (ho : trimOk o) :
    trimOk (dupdate d o) := fun p hp =>
  (mem_dupdate o d p hp).elim (hd p) (ho p)

theorem trimOk_optDset {d : Obj} {k : String} {o : Option Obj} (hd : trimOk d)
    (h₁ : k ≠ "headline") (h₂ : k ≠ "description") : trimOk (optDset d k o) := by
  cases o with
  | some a => exact trimOk_dset hd (trimPairOk_other h₁ h₂)
  | none => exact hd

theorem trimOkE_pure {s : Obj} (hs : trimOk s) : trimOkE (pure s) := by
  intro r hr
  rcases hr with h | h
  · exact (Except.ok.inj h) ▸ hs
  · exact Except.noConfusion h

theorem trimOkE_ite (c : Prop) [Decidable c] {x y : Except Obj Obj}
    (hx : trimOkE x) (hy : trimOkE y) : trimOkE (if c then x else y) := by
  by_cases hc : c
  · rwa [if_pos hc]
  · rwa [if_neg hc]

theorem trimOkE_error {s : Obj} (hs : trimOk s) : trimOkE (Except.error s) := by
  intro r hr
  rcases hr with h | h
  · exact Except.noConfusion h
  · exact (Except.error.inj h) ▸ hs

theorem ebind_ok {ε α β : Type} {x : Except ε α} {f : α → Except ε β} {b : β}
    (h : (x >>= f) = .ok b) : ∃ a, x = .ok a ∧ f a = .ok b := by
  cases x with
  | ok a => exact ⟨a, rfl, by simpa [Bind.bind, Except.bind] using h⟩
  | error e => simp [Bind.bind, Except.bind] at h

theorem ebind_error {ε α β : Type} {x : Except ε α} {f : α → Except ε β} {e : ε}
    (h : (x >>= f) = .error e) : x = .error e ∨ ∃ a, x = .ok a ∧ f a = .error e := by
  cases x with
  | ok a => exact Or.inr ⟨a, rfl, by simpa [Bind.bind, Except.bind] using h⟩
  | error e' =>
      simp [Bind.bind, Except.bind] at h
      exact Or.inl (by rw [h])

theorem trimOkE_bind {x : Except Obj Obj} {f : Obj → Except Obj Obj}
    (hx : trimOkE x) (hf : ∀ a, trimOk a → trimOkE (f a)) : trimOkE (x >>= f) := by
  intro r hr
  rcases hr with hr | hr
  · obtain ⟨a, ha, hfa⟩ := ebind_ok hr
    exact hf a (hx a (Or.inl ha)) r (Or.inl hfa)
  · rcases ebind_error hr with h | ⟨a, ha, hfa⟩
    · exact hx r (Or.inr h)
    · exact hf a (hx a (Or.inl ha)) r (Or.inr hfa)

theorem trimOkE_metrics (ad s : Obj) (hs : trimOk s) : trimOkE (enh_metrics ad s) := by
  dsimp only [enh_metrics]
  cases hm : dget ad "content_metrics" with
  | none => exact trimOkE_pure hs
  | some v =>
      cases v with
      | vobj m =>
          exact trimOkE_pure (trimOk_ite _
            (trimOk_dset hs (trimPairOk_other (by decide) (by decide))) hs)
      | vnull => exact trimOkE_error hs
      | vbool b => exact trimOkE_error hs
      | vnum q => exact trimOkE_error hs
      | vstr st => exact trimOkE_error hs
      | varr xs => exact trimOkE_error hs

theorem trimOkE_keywords (ad s : Obj) (hs : trimOk s) : trimOkE (enh_keywords ad s) := by
  dsimp only [enh_keywords]
  cases hm : dget ad "keyword_analysis" with
  | none => exact trimOkE_pure hs
  | some v =>
      cases v with
      | vobj kd =>
          refine trimOkE_ite _ ?_ (trimOkE_pure hs)
          cases hk : dgetD kd "top_keywords" vnull with
          | varr tk =>
              dsimp only []
              cases ha : analyzed_words tk with
              | ok aw =>
                  dsimp only []
                  cases hkw : dgetD s "keywords" (varr []) with
                  | varr ex =>
                      exact trimOkE_pure
                        (trimOk_dset hs (trimPairOk_other (by decide) (by decide)))
                  | vnull => exact trimOkE_error hs
                  | vbool b => exact trimOkE_error hs
                  | vnum q => exact trimOkE_error hs
                  | vstr st => exact trimOkE_error hs
                  | vobj fs => exact trimOkE_error hs
              | error e => exact trimOkE_error hs
          | vnull => exact trimOkE_error hs
          | vbool b => exact trimOkE_error hs
          | vnum q => exact trimOkE_error hs
          | vstr st => exact trimOkE_error hs
          | vobj fs => exact trimOkE_error hs
      | vnull => exact trimOkE_error hs
      | vbool b => exact trimOkE_error hs
      | vnum q => exact trimOkE_error hs
      | vstr st => exact trimOkE_error hs
      | varr xs => exact trimOkE_error hs

theorem trimOkE_readability (ad s : Obj) (hs : trimOk s) :
    trimOkE (enh_readability ad s) := by
  dsimp only [enh_readability]
  cases hm : dget ad "readability" with
  | none => exact trimOkE_pure hs
  | some v =>
      cases v with
      | vobj r =>
          exact trimOkE_pure (trimOk_dset hs (trimPairOk_other (by decide) (by decide)))
      | vnull => exact trimOkE_error hs
      | vbool b => exact trimOkE_error hs
      | vnum q => exact trimOkE_error hs
      | vstr st => exact trimOkE_error hs
      | varr xs => exact trimOkE_error hs

theorem trimOkE_topics (ai s : Obj) (hs : trimOk s) : trimOkE (enh_topics ai s) := by
  dsimp only [enh_topics]
  refine trimOkE_ite _ ?_ (trimOkE_pure hs)
  cases hmt : dgetD ai "main_topics" vnull with
  | varr ts =>
      dsimp only []
      cases hl : lowered_topics ts with
      | ok lts =>
          dsimp only []
          cases hkw : dgetD s "keywords" (varr []) with
          | varr ex =>
              exact trimOkE_pure (trimOk_dset hs (trimPairOk_other (by decide) (by decide)))
          | vnull => exact trimOkE_error hs
          | vbool b => exact trimOkE_error hs
          | vnum q => exact trimOkE_error hs
          | vstr st => exact trimOkE_error hs
          | vobj fs => exact trimOkE_error hs
      | error e => exact trimOkE_error hs
  | vstr st =>
      dsimp only []
      cases hkw : dgetD s "keywords" (varr []) with
      | varr ex =>
          exact trimOkE_pure (trimOk_dset hs (trimPairOk_other (by decide) (by decide)))
      | vnull => exact trimOkE_error hs
      | vbool b => exact trimOkE_error hs
      | vnum q => exact trimOkE_error hs
      | vstr st => exact trimOkE_error hs
      | vobj fs => exact trimOkE_error hs
  | vnull => exact trimOkE_error hs
  | vbool b => exact trimOkE_error hs
  | vnum q => exact trimOkE_error hs
  | vobj fs => exact trimOkE_error hs

theorem trimOkE_ai (ad s : Obj) (hs : trimOk s) : trimOkE (enh_ai ad s) := by
  dsimp only [enh_ai]
  cases hm : dget ad "ai_insights" with
  | none => exact trimOkE_pure hs
  | some v =>
      cases v with
      | vobj ai =>
          refine trimOkE_bind (trimOkE_topics ai s hs) (fun s₁ h₁ => ?_)
          exact trimOkE_pure (trimOk_ite _
            (trimOk_dset h₁ (trimPairOk_other (by decide) (by decide))) h₁)
      | vnull => exact trimOkE_pure hs
      | vbool b => exact trimOkE_pure hs
      | vnum q => exact trimOkE_pure hs
      | vstr st => exact trimOkE_pure hs
      | varr xs => exact trimOkE_pure hs

theorem trimOk_enhance (a cd : Obj) (s : Obj) (hs : trimOk s) :
    trimOk (enhance_with_analysis s a cd) := by
  dsimp only [enhance_with_analysis]
  have hgo : trimOkE (enhance_go s a) := by
    dsimp only [enhance_go]
    refine trimOkE_bind (trimOkE_metrics a s hs) (fun s₁ h₁ => ?_)
    refine trimOkE_bind (trimOkE_keywords a s₁ h₁) (fun s₂ h₂ => ?_)
    refine trimOkE_bind (trimOkE_readability a s₂ h₂) (fun s₃ h₃ => ?_)
    exact trimOkE_ai a s₃ h₃
  cases hE : enhance_go s a with
  | ok r => exact hgo r (Or.inl hE)
  | error r => exact hgo r (Or.inr hE)

theorem trimOk_maybe_enhance {s : Obj} (ad : Option Obj) (cd : Obj) (hs : trimOk s) :
    trimOk (maybe_enhance s ad cd) := by
  dsimp only [maybe_enhance]
  cases ad with
  | none => exact hs
  | some a => exact trimOk_ite _ hs (trimOk_enhance a cd s hs)

theorem pySliceE_ok : ∀ (v : Value) (n : Nat) (w : Value),
    pySliceE v n = Except.ok w → w = pySliceV v n
  | vstr _, _, _, h => (Except.ok.inj h).symm
  | varr _, _, _, h => (Except.ok.inj h).symm
  | vnull, _, _, h => Except.noConfusion h
  | vbool _, _, _, h => Except.noConfusion h
  | vnum _, _, _, h => Except.noConfusion h
  | vobj _, _, _, h => Except.noConfusion h

theorem trimOkR_ok {s : Obj} (hs : trimOk s) : trimOkR (Except.ok s) :=
  fun _ hr => (Except.ok.inj hr) ▸ hs

theorem trimOkR_bindP {α : Type} (P : α → Prop) {x : Except Err α}
    {f : α → Except Err Obj} (hx : ∀ a, x = Except.ok a → P a)
    (hf : ∀ a, P a → trimOkR (f a)) : trimOkR (x >>= f) := by
  intro r hr
  obtain ⟨a, ha, hfa⟩ := ebind_ok hr
  exact hf a (hx a ha) r hfa

theorem trimOkR_step (c : Prop) [Decidable c] {m : Except Err Value} {d : Obj}
    {k : String} (hd : trimOk d) (h₁ : k ≠ "headline") (h₂ : k ≠ "description") :
    trimOkR (if c then (m >>= fun v => Except.ok (dset d k v)) else Except.ok d) := by
  intro r hr
  split at hr
  · obtain ⟨v, hv, hr⟩ := ebind_ok hr
    rw [← Except.ok.inj hr]
    exact trimOk_dset hd (trimPairOk_other h₁ h₂)
  · rw [← Except.ok.inj hr]
    exact hd

theorem trimOkR_add_core (env : BuildEnv) (cd : Obj) :
    trimOkR (add_core_propertiesE env cd) := by
  dsimp only [add_core_propertiesE]
  refine trimOkR_bindP trimOk (fun a ha => ?_) (fun acc hacc => ?_)
  · split at ha
    · obtain ⟨t110, ht, ha⟩ := ebind_ok ha
      rw [← Except.ok.inj ha, pySliceE_ok _ _ _ ht]
      exact trimOk_dset (trimOk_dset trimOk_nil trimPairOk_headline)
        (trimPairOk_other (by decide) (by decide))
    · rw [← Except.ok.inj ha]
      exact trimOk_nil
  · refine trimOkR_bindP trimOk (fun a ha => ?_) (fun acc₂ hacc₂ => ?_)
    · split at ha
      · obtain ⟨d160, hd, ha⟩ := ebind_ok ha
        rw [← Except.ok.inj ha, pySliceE_ok _ _ _ hd]
        refine trimOk_dset ?_ trimPairOk_description
        refine trimOk_ite _
          (trimOk_dset (trimOk_dset ?z (trimPairOk_other (by decide) (by decide)))
            (trimPairOk_other (by decide) (by decide))) ?z
        refine trimOk_ite _ (trimOk_dset ?y (trimPairOk_other (by decide) (by decide))) ?y
        exact hacc
      · rw [← Except.ok.inj ha]
        refine trimOk_ite _
          (trimOk_dset (trimOk_dset ?z2 (trimPairOk_other (by decide) (by decide)))
            (trimPairOk_other (by decide) (by decide))) ?z2
        refine trimOk_ite _ (trimOk_dset ?y2 (trimPairOk_other (by decide) (by decide))) ?y2
        exact hacc
    · refine trimOkR_ok ?_
      refine trimOk_ite _ (trimOk_dset ?w (trimPairOk_other (by decide) (by decide))) ?w
      exact trimOk_dset hacc₂ (trimPairOk_other (by decide) (by decide))

theorem trimOkR_add_content (cd : Obj) (s : Obj) (hs : trimOk s) :
    trimOkR (add_content_propertiesE s cd) := by
  dsimp only [add_content_propertiesE]
  refine trimOkR_bindP trimOk
    (fun a ha => trimOkR_step _ hs (by decide) (by decide) a ha) (fun s₁ h₁ => ?_)
  refine trimOkR_bindP trimOk
    (fun a ha => trimOkR_step _ h₁ (by decide) (by decide) a ha) (fun s₂ h₂ => ?_)
  refine trimOkR_bindP trimOk
    (fun a ha => trimOkR_step _ h₂ (by decide) (by decide) a ha) (fun s₃ h₃ => ?_)
  exact trimOkR_ok
    (trimOk_ite _ (trimOk_dset h₃ (trimPairOk_other (by decide) (by decide))) h₃)

theorem trimOk_add_technical (env : BuildEnv) (s cd : Obj) (hs : trimOk s) :
    trimOk (add_technical_metadata env s cd) := by
  dsimp only [add_technical_metadata]
  refine trimOk_ite _ (trimOk_dset (trimOk_dset ?s4 (trimPairOk_other (by decide) (by decide)))
    (trimPairOk_other (by decide) (by decide))) ?s4
  refine trimOk_dset ?s3 (trimPairOk_other (by decide) (by decide))
  refine trimOk_dset ?s2 (trimPairOk_other (by decide) (by decide))
  refine trimOk_ite _ (trimOk_dset ?s1 (trimPairOk_other (by decide) (by decide))) ?s1
  refine trimOk_dset ?s0 (trimPairOk_other (by decide) (by decide))
  exact hs

theorem trimOk_try_pre (env : BuildEnv) (cd : Obj) (ad : Option Obj)
    (sc : Option Obj) :
    ∀ s, build_schema_try env cd ad sc = Except.ok s →
      ∃ raw, s = clean_schema raw ∧ trimOk raw := by
  intro s hs
  have hbase : trimOk
      [("@context", vstr "https://schema.org"),
       ("@type", vstr "BlogPosting"),
       ("@id", dgetD cd "url" (vstr "")),
       ("mainEntityOfPage", vobj [("@type", vstr "WebPage"),
                                  ("@id", dgetD cd "url" (vstr ""))])] := by
    intro p hp
    simp only [List.mem_cons, List.not_mem_nil, or_false] at hp
    rcases hp with rfl | rfl | rfl | rfl
    · exact trimPairOk_other (by decide) (by decide)
    · exact trimPairOk_other (by decide) (by decide)
    · exact trimPairOk_other (by decide) (by decide)
    · exact trimPairOk_other (by decide) (by decide)
  dsimp only [build_schema_try] at hs
  obtain ⟨core, hcore, hs⟩ := ebind_ok hs
  obtain ⟨pub, hpub, hs⟩ := ebind_ok hs
  obtain ⟨s₄, hs₄, hs⟩ := ebind_ok hs
  refine ⟨_, (Except.ok.inj hs).symm, ?_⟩
  refine trimOk_optDset (trimOk_add_technical env _ cd (trimOk_maybe_enhance ad cd ?_))
    (by decide) (by decide)
  refine trimOkR_add_content cd _ ?_ s₄ hs₄
  refine trimOk_optDset
    (trimOk_dset
      (trimOk_optDset (trimOk_dupdate hbase ?_) (by decide) (by decide))
      (trimPairOk_other (by decide) (by decide)))
    (by decide) (by decide)
  exact trimOkR_add_core env cd core hcore

theorem dget_mem : ∀ (d : Obj) (k : String) (v : Value), dget d k = some v → (k, v) ∈ d
  | [], _, _, h => by simp [dget] at h
  | (k₀, v₀) :: rest, k, v, h => by
      by_cases hk : k₀ = k
      · rw [dget, if_pos hk] at h
        subst hk
        rw [← Option.some.inj h]
        exact List.mem_cons_self _ _
      · rw [dget, if_neg hk] at h
        exact List.mem_cons_of_mem _ (dget_mem rest k v h)

theorem mem_cleanKeep_vstr (k₀ : String) (v₀ : Value) (tail : Obj) (k s : String)
    (h : (k, vstr s) ∈ cleanKeep k₀ v₀ tail) :
    (k, vstr s) ∈ tail ∨ (k, vstr s) = (k₀, v₀) := by
  cases v₀ with
  | vobj fs =>
      rw [cleanKeep] at h
      by_cases hc : (clean_schema fs).isEmpty = true
      · rw [if_pos hc] at h
        exact Or.inl h
      · rw [if_neg hc] at h
        rcases List.mem_cons.mp h with he | ht
        · exact absurd (congrArg Prod.snd he) (by simp)
        · exact Or.inl ht
  | varr xs =>
      rw [cleanKeep] at h
      by_cases hc : (xs.filter keptListItem).isEmpty = true
      · rw [if_pos hc] at h
        exact Or.inl h
      · rw [if_neg hc] at h
        rcases List.mem_cons.mp h with he | ht
        · exact absurd (congrArg Prod.snd he) (by simp)
        · exact Or.inl ht
  | vnull => exact (List.mem_cons.mp h).elim Or.inr Or.inl
  | vbool b => exact (List.mem_cons.mp h).elim Or.inr Or.inl
  | vnum q => exact (List.mem_cons.mp h).elim Or.inr Or.inl
  | vstr t => exact (List.mem_cons.mp h).elim Or.inr Or.inl

theorem mem_clean_vstr : ∀ (d : Obj) (k s : String),
    (k, vstr s) ∈ clean_schema d → (k, vstr s) ∈ d
  | [], _, _, h => absurd h (List.not_mem_nil _)
  | (k₀, v₀) :: rest, k, s, h => by
      rw [clean_schema] at h
      by_cases hrm : isRemovedVal v₀ = true
      · rw [if_pos hrm] at h
        exact List.mem_cons_of_mem _ (mem_clean_vstr rest k s h)
      · rw [if_neg hrm] at h
        rcases mem_cleanKeep_vstr k₀ v₀ (clean_schema rest) k s h with ht | he
        · exact List.mem_cons_of_mem _ (mem_clean_vstr rest k s ht)
        · exact he ▸ List.mem_cons_self _ _

set_option maxRecDepth 8000 in
theorem c4_counterexample :
    dget (build_blogposting_schema ⟨⟨2026, 1, 2, 3, 4, 5, some 0⟩, fun _ => none⟩
        [("title", vstr "A title that has been deliberately padded out to run well past one hundred and ten characters so the truncation bound must fail."),
         ("url", vstr "http://[::1/a")] none none) "headline" =
      some (vstr "A title that has been deliberately padded out to run well past one hundred and ten characters so the truncation bound must fail.") ∧
    110 < ("A title that has been deliberately padded out to run well past one hundred and ten characters so the truncation bound must fail." : String).length :=
  ⟨rfl, by decide⟩

/-- C4 amended: when the builder's try body completes without an exception,
the emitted schema is its cleaned result, in which any string-valued
headline has at most 110 characters and any string-valued description at
most 160; but when a step of the try body raises — for instance urlparse
failing on an unmatched-bracket URL — the except clause returns the minimal
fallback schema, whose headline is the raw, untruncated title value, so the
original unconditional bound fails (see the counterexample). -/
theorem c4_truncated_unless_fallback (env : BuildEnv) (cd : Obj)
    (ad : Option Obj) (sc : Option Obj) :
    (∀ s, build_schema_try env cd ad sc = Except.ok s →
      build_blogposting_schema env cd ad sc = s ∧
      (∀ h, dget s "headline" = some (vstr h) → h.length ≤ 110) ∧
      (∀ ds, dget s "description" = some (vstr ds) → ds.length ≤ 160)) ∧
    (∀ e, build_schema_try env cd ad sc = Except.error e →
      build_blogposting_schema env cd ad sc = minimal_schema env cd) := by
  constructor
  · intro s hs
    obtain ⟨raw, hraw, htrim⟩ := trimOk_try_pre env cd ad sc s hs
    refine ⟨?_, ?_, ?_⟩
    · unfold build_blogposting_schema
      rw [hs]
    · intro h hdg
      have hm := dget_mem _ _ _ hdg
      rw [hraw] at hm
      have hm2 := mem_clean_vstr _ _ _ hm
      rcases htrim _ hm2 with ⟨_, v, hv⟩ | ⟨hk, _⟩ | ⟨hne, _⟩
      · exact pySliceV_vstr_len v 110 h hv.symm
      · have hk' : "headline" = "description" := hk
        exact absurd hk' (by decide)
      · exact absurd rfl hne
    · intro ds hdg
      have hm := dget_mem _ _ _ hdg
      rw [hraw] at hm
      have hm2 := mem_clean_vstr _ _ _ hm
      rcases htrim _ hm2 with ⟨hk, _⟩ | ⟨_, v, hv⟩ | ⟨_, hne⟩
      · have hk' : "description" = "headline" := hk
        exact absurd hk' (by decide)
      · exact pySliceV_vstr_len v 160 ds hv.symm
      · exact absurd rfl hne
  · intro e he
    unfold build_blogposting_schema
    rw [he]

set_option maxRecDepth 8000 in
theorem c4_witness :
    (build_blogposting_schema ⟨⟨2026, 1, 2, 3, 4, 5, some 0⟩, fun _ => none⟩
        [("title", vstr "Short Title"), ("description", vstr "Short description.")]
        none none =
      [("@context", vstr "https://schema.org"),
       ("@type", vstr "BlogPosting"),
       ("mainEntityOfPage", vobj [("@type", vstr "WebPage")]),
       ("headline", vstr "Short Title"),
       ("name", vstr "Short Title"),
       ("description", vstr "Short description."),
       ("inLanguage", vstr "en-US"),
       ("publisher", vobj [("@type", vstr "Organization"), ("name", vstr "Example.Com")]),
       ("encodingFormat", vstr "text/html"),
       ("accessibilityFeature", varr [vstr "readingOrder", vstr "structuralNavigation"]),
       ("contentRating", vstr "General")] ∧
     ("Short Title" : String).length ≤ 110 ∧
     ("Short description." : String).length ≤ 160) ∧
    build_blogposting_schema ⟨⟨2026, 1, 2, 3, 4, 5, some 0⟩, fun _ => none⟩
        [("title", vstr "A title that has been deliberately padded out to run well past one hundred and ten characters so the truncation bound must fail."),
         ("url", vstr "http://[::1/a")] none none =
      minimal_schema ⟨⟨2026, 1, 2, 3, 4, 5, some 0⟩, fun _ => none⟩
        [("title", vstr "A title that has been deliberately padded out to run well past one hundred and ten characters so the truncation bound must fail."),
         ("url", vstr "http://[::1/a")] :=
  ⟨⟨((c4_truncated_unless_fallback ⟨⟨2026, 1, 2, 3, 4, 5, some 0⟩, fun _ => none⟩
        [("title", vstr "Short Title"), ("description", vstr "Short description.")]
        none none).1
      [("@context", vstr "https://schema.org"),
       ("@type", vstr "BlogPosting"),
       ("mainEntityOfPage", vobj [("@type", vstr "WebPage")]),
       ("headline", vstr "Short Title"),
       ("name", vstr "Short Title"),
       ("description", vstr "Short description."),
       ("inLanguage", vstr "en-US"),
       ("publisher", vobj [("@type", vstr "Organization"), ("name", vstr "Example.Com")]),
       ("encodingFormat", vstr "text/html"),
       ("accessibilityFeature", varr [vstr "readingOrder", vstr "structuralNavigation"]),
       ("contentRating", vstr "General")] rfl).1,
    ((c4_truncated_unless_fallback ⟨⟨2026, 1, 2, 3, 4, 5, some 0⟩, fun _ => none⟩
        [("title", vstr "Short Title"), ("description", vstr "Short description.")]
        none none).1
      [("@context", vstr "https://schema.org"),
       ("@type", vstr "BlogPosting"),
       ("mainEntityOfPage", vobj [("@type", vstr "WebPage")]),
       ("headline", vstr "Short Title"),
       ("name", vstr "Short Title"),
       ("description", vstr "Short description."),
       ("inLanguage", vstr "en-US"),
       ("publisher", vobj [("@type", vstr "Organization"), ("name", vstr "Example.Com")]),
       ("encodingFormat", vstr "text/html"),
       ("accessibilityFeature", varr [vstr "readingOrder", vstr "structuralNavigation"]),
       ("contentRating", vstr "General")] rfl).2.1 "Short Title" rfl,
    ((c4_truncated_unless_fallback ⟨⟨2026, 1, 2, 3, 4, 5, some 0⟩, fun _ => none⟩
        [("title", vstr "Short Title"), ("description", vstr "Short description.")]
        none none).1
      [("@context", vstr "https://schema.org"),
       ("@type", vstr "BlogPosting"),
       ("mainEntityOfPage", vobj [("@type", vstr "WebPage")]),
       ("headline", vstr "Short Title"),
       ("name", vstr "Short Title"),
       ("description", vstr "Short description."),
       ("inLanguage", vstr "en-US"),
       ("publisher", vobj [("@type", vstr "Organization"), ("name", vstr "Example.Com")]),
       ("encodingFormat", vstr "text/html"),
       ("accessibilityFeature", varr [vstr "readingOrder", vstr "structuralNavigation"]),
       ("contentRating", vstr "General")] rfl).2.2 "Short description." rfl⟩,
   (c4_truncated_unless_fallback ⟨⟨2026, 1, 2, 3, 4, 5, some 0⟩, fun _ => none⟩
        [("title", vstr "A title that has been deliberately padded out to run well past one hundred and ten characters so the truncation bound must fail."),
         ("url", vstr "http://[::1/a")] none none).2
     ⟨"ValueError: Invalid IPv6 URL"⟩ rfl⟩

end BlogSchema
